import Mathlib

/-!
Verification development for the RTGS real-time GNSS processing engine.

Each Python module of the repository is shallowly embedded below:
floating-point numbers are modelled as exact rationals (`ℚ`) where the
code only performs field arithmetic and comparisons, and as real numbers
(`ℝ`) where transcendental functions (`sin`, `cos`, `sqrt`, `atan2`)
enter; Python `dict`s are modelled as insertion-ordered association
lists; `None`-able values are `Option`s; code that can raise is given an
`Except` result where the raising behaviour matters.
-/

namespace RTGS

/-! ### Python dict model

Python 3.7+ `dict`s preserve insertion order; assignment to an existing
key overwrites in place.  `dictInsert` / `dictLookup` model `d[k] = v`
and `d.get(k)` / `k in d`. -/

def dictLookup {κ β : Type} [DecidableEq κ] : List (κ × β) → κ → Option β
  | [], _ => none
  | (k', v) :: rest, k => if k' = k then some v else dictLookup rest k

def dictInsert {κ β : Type} [DecidableEq κ] : List (κ × β) → κ → β → List (κ × β)
  | [], k, v => [(k, v)]
  | (k', v') :: rest, k, v =>
    if k' = k then (k, v) :: rest else (k', v') :: dictInsert rest k v

/-- `d1.update(d2)`-like bulk assignment: each pair of `d2` is assigned
into `d1` in order (models the merge loop
`for sat_k, sat_v in epoch_obs.satellites.items(): pending.satellites[sat_k] = sat_v`). -/
def dictInsertAll {κ β : Type} [DecidableEq κ]
    (d1 d2 : List (κ × β)) : List (κ × β) :=
  d2.foldl (fun acc kv => dictInsert acc kv.1 kv.2) d1

def dictKeys {κ β : Type} (d : List (κ × β)) : List κ := d.map Prod.fst

/-! ### core/gnss_time.py — `GNSSTime`

A `datetime` (UTC) is modelled by the exact number of seconds since the
GPS epoch 1980-01-06T00:00:00Z, as a rational (datetimes carry whole
microseconds, so every representable instant is rational). -/

def LEAP_SECONDS : ℚ := 18

def SECONDS_PER_WEEK : ℚ := 7 * 24 * 3600

/-- `GNSSTime.gps_to_utc_datetime(gps_week, gps_seconds)`:
`GPS_EPOCH + timedelta(seconds = week*7*24*3600 + seconds - LEAP_SECONDS)`. -/
def gps_to_utc_datetime (gps_week : ℤ) (gps_seconds : ℚ) : ℚ :=
  gps_week * SECONDS_PER_WEEK + gps_seconds - LEAP_SECONDS

/-- `GNSSTime.utc_to_gps(utc_dt)`: GPS time = UTC + leap seconds, then split
into the week number (`int(total_seconds // 604800)`, a floor since the
value is the floor already) and the remaining seconds of week. -/
def utc_to_gps (utc_dt : ℚ) : ℤ × ℚ :=
  let total_seconds : ℚ := utc_dt + LEAP_SECONDS
  let week : ℤ := ⌊total_seconds / SECONDS_PER_WEEK⌋
  (week, total_seconds - week * SECONDS_PER_WEEK)

/-- `GNSSTime.gps_day_of_week(utc_dt)`: day index of the seconds-of-week. -/
def gps_day_of_week (utc_dt : ℚ) : ℤ :=
  ⌊(utc_to_gps utc_dt).2 / (24 * 3600)⌋

/-! ### core/ring_buffer.py — `RingBuffer`

The buffer is a `collections.deque(maxlen=maxsize)` plus a `closed`
flag.  Only the non-blocking paths are modelled (the blocking branches
of `put`/`get` wait on condition variables; thread scheduling is outside
this embedding).  A `deque` with `maxlen` discards its oldest element
when an `append` overflows it. -/

structure RingBuffer (α : Type) where
  maxsize : ℕ
  buffer : List α
  closed : Bool

def RingBuffer.init (α : Type) (maxsize : ℕ) : RingBuffer α :=
  ⟨maxsize, [], false⟩

/-- `deque(maxlen).append(item)`: append, keeping only the newest `maxlen`. -/
def dequeAppend {α : Type} (maxlen : ℕ) (buf : List α) (item : α) : List α :=
  let b := buf ++ [item]
  b.drop (b.length - maxlen)

/-- `RingBuffer.put(item)` with the default `block=False`: returns `False`
iff the buffer is closed; otherwise appends (dropping the oldest entry on
overflow) and returns `True`. -/
def RingBuffer.put {α : Type} (rb : RingBuffer α) (item : α) : Bool × RingBuffer α :=
  if rb.closed then (false, rb)
  else (true, { rb with buffer := dequeAppend rb.maxsize rb.buffer item })

/-- A sequence of non-blocking `put` calls, collecting each call's result. -/
def RingBuffer.putAll {α : Type} : RingBuffer α → List α → List Bool × RingBuffer α
  | rb, [] => ([], rb)
  | rb, x :: xs =>
    let r := rb.put x
    let rest := r.2.putAll xs
    (r.1 :: rest.1, rest.2)

/-- `RingBuffer.get(block=False)`: pop the oldest item, `None` when empty. -/
def RingBuffer.getNB {α : Type} (rb : RingBuffer α) : Option α × RingBuffer α :=
  match rb.buffer with
  | [] => (none, rb)
  | x :: rest => (some x, { rb with buffer := rest })

/-- `RingBuffer.close()`. -/
def RingBuffer.close {α : Type} (rb : RingBuffer α) : RingBuffer α :=
  { rb with closed := true }

/-! ### core/rtcm_handler.py — ephemeris records and cache

`_handle_gps_eph` / `_handle_gal_eph` / `_handle_bds_eph` build Keplerian
parameter dictionaries (angles already multiplied by π), `_handle_glo_eph`
builds a GLONASS state-vector dictionary.  The numeric type is a
parameter: the handler stores Python floats (`α := ℝ` downstream), while
witnesses instantiate `α := ℚ`. -/

structure KepEph (α : Type) where
  satType : String
  prn : ℕ
  week : ℤ
  toe : α
  toc : α
  sqrtA : α
  ecc : α
  m0 : α
  omega : α
  i0 : α
  omega0 : α
  deltaN : α
  omegaDot : α
  idot : α
  cuc : α
  cus : α
  crc : α
  crs : α
  cic : α
  cis : α
  af0 : α
  af1 : α
  af2 : α
  health : ℤ
  deriving DecidableEq

structure GloEph (α : Type) where
  prn : ℕ
  tb : α
  tk : α
  freqChannel : ℤ
  x : α
  y : α
  z : α
  vx : α
  vy : α
  vz : α
  ax : α
  ay : α
  az : α
  tauN : α
  gammaN : α
  health : ℤ
  deriving DecidableEq

inductive Eph (α : Type) where
  | kep : KepEph α → Eph α
  | glo : GloEph α → Eph α
  deriving DecidableEq

/-- `eph_dict.get(time_tag_key)` for the two reference-time tags that
`_update_cache` is called with: `'Toe'` (present only in the Keplerian
dictionaries) and `'Tb'` (present only in the GLONASS dictionaries);
`dict.get` of an absent key is `None`. -/
def Eph.get {α : Type} : Eph α → String → Option α
  | .kep k, "Toe" => some k.toe
  | .glo g, "Tb" => some g.tb
  | _, _ => none

/-- `eph_dict.get('FreqChannel', 0)` as used for GLONASS frequency lookup. -/
def Eph.freqChannelD {α : Type} : Eph α → ℤ
  | .glo g => g.freqChannel
  | .kep _ => 0

/-- `RTCMHandler._update_cache(key, new_eph, time_tag_key)`: insert when
the key is absent; otherwise replace exactly when the new record's
reference-time field differs from the stored one.  The boolean reports
whether a cache write happened. -/
def updateCache {α : Type} [DecidableEq α] (cache : List (String × Eph α))
    (key : String) (newEph : Eph α) (timeTagKey : String) :
    List (String × Eph α) × Bool :=
  match dictLookup cache key with
  | none => (dictInsert cache key newEph, true)
  | some oldEph =>
    if newEph.get timeTagKey ≠ oldEph.get timeTagKey then
      (dictInsert cache key newEph, true)
    else
      (cache, false)

/-- Fold a sequence of decoded ephemeris submissions through the cache,
counting the writes. -/
def applyEphMessages {α : Type} [DecidableEq α] :
    List (String × Eph α × String) → List (String × Eph α) →
      List (String × Eph α) × ℕ
  | [], cache => (cache, 0)
  | (key, eph, tag) :: rest, cache =>
    let r := updateCache cache key eph tag
    let rr := applyEphMessages rest r.1
    (rr.1, (if r.2 then 1 else 0) + rr.2)

/-- A message-1019 style record whose fields are all zero except `Toe`
(concrete test vehicle for the cache policy). -/
def kepEphWithToe (toe : ℚ) : KepEph ℚ :=
  { satType := "GPS", prn := 1, week := 2308, toe := toe, toc := 0, sqrtA := 0
    ecc := 0, m0 := 0, omega := 0, i0 := 0, omega0 := 0, deltaN := 0
    omegaDot := 0, idot := 0, cuc := 0, cus := 0, crc := 0, crs := 0
    cic := 0, cis := 0, af0 := 0, af1 := 0, af2 := 0, health := 0 }

/-! ### core/data_models.py — observation data model

`SignalData` and `SatelliteState` are direct translations.  The
`EpochObservation` dataclass in data_models.py declares only `gps_time`
and `satellites`; the handler nevertheless constructs it with a
`utc_datetime` keyword and every consumer reads `.utc_datetime` (see the
constructor model `epochObservationFields` below).  The record here
carries the `utc` value the handler computes, modelled as seconds since
the GPS epoch on the UTC scale. -/

structure SignalData (α : Type) where
  signal_id : String
  snr : α
  phase : α
  pseudorange : α
  lock_time : ℤ
  half_cycle : ℤ
  doppler : α

structure SatelliteState (α : Type) where
  sys_id : String
  prn : ℕ
  azimuth : Option α := none
  elevation : Option α := none
  sat_pos_ecef : Option (List α) := none
  signals : List (String × SignalData α) := []

structure EpochObservation (α : Type) where
  gps_time : α
  utc : α
  satellites : List (String × SatelliteState α) := []

/-! ### ui/positioning/workers.py — `PositioningThread.run` merge loop

The loop keeps `(current_epoch_utc, pending_epoch)`; both are set and
cleared together, so the pair is modelled as one optional value keyed by
the UTC datetime normalized to the whole second
(`utc_dt.replace(microsecond=0)`, i.e. the floor for the nonnegative
instants a `datetime` can hold). -/

def epochKey {α : Type} [LinearOrderedField α] [FloorRing α]
    (e : EpochObservation α) : ℤ :=
  ⌊e.utc⌋

/-- One iteration of the merge loop on a received fragment: first fragment
becomes pending; same normalized second merges `satellites` by dict
assignment (last writer wins); different second flushes the pending epoch
to the solver and the fragment becomes the new pending epoch. -/
def mergeStep {α : Type} [LinearOrderedField α] [FloorRing α]
    (st : Option (ℤ × EpochObservation α)) (e : EpochObservation α) :
    Option (ℤ × EpochObservation α) × Option (EpochObservation α) :=
  let key := epochKey e
  match st with
  | none => (some (key, e), none)
  | some (k, p) =>
    if key = k then
      (some (k, { p with satellites := dictInsertAll p.satellites e.satellites }), none)
    else
      (some (key, e), some p)

/-- The merge loop over a whole fragment sequence, collecting the epochs
flushed to the solver in order. -/
def mergeRun {α : Type} [LinearOrderedField α] [FloorRing α]
    (st : Option (ℤ × EpochObservation α)) :
    List (EpochObservation α) →
      Option (ℤ × EpochObservation α) × List (EpochObservation α)
  | [] => (st, [])
  | e :: es =>
    let r := mergeStep st e
    let rr := mergeRun r.1 es
    (rr.1, r.2.toList ++ rr.2)

/-- The merge loop followed by shutdown (`ring_buffer` closed): any pending
epoch is flushed. -/
def mergeClose {α : Type} [LinearOrderedField α] [FloorRing α]
    (st : Option (ℤ × EpochObservation α)) (frags : List (EpochObservation α)) :
    List (EpochObservation α) :=
  let r := mergeRun st frags
  r.2 ++ (r.1.map Prod.snd).toList

/-- A bare fragment at UTC time `t` (no satellites), for concrete runs. -/
def fragAt (t : ℚ) : EpochObservation ℚ :=
  { gps_time := 0, utc := t, satellites := [] }

/-! ### core/spp_positioning.py — `SPPPositioner` observation gate

`_extract_observations` filters the epoch's satellites; `process_epoch`
refuses to call the least-squares stage below `MIN_SATELLITES` usable
observations.  The least-squares solver itself is abstracted as the
function argument `solveLS`. -/

def MIN_SATELLITES : ℕ := 4

/-- The `for sig_id, signal in sigs.items()` scan: take the first signal
whose `pseudorange` attribute is `> 0`. -/
def firstPositivePR {α : Type} [LinearOrderedField α] :
    List (String × SignalData α) → Option α
  | [] => none
  | (_, sig) :: rest =>
    if 0 < sig.pseudorange then some sig.pseudorange else firstPositivePR rest

/-- One entry of the observation list handed to `_solve_least_squares`. -/
structure ObsEntry (α : Type) where
  sat_key : String
  pseudorange : α
  elevation : α
  azimuth : α
  sat_pos : List α
  satellite : SatelliteState α

/-- The per-satellite body of `_extract_observations`: skip when the ECEF
position is absent or empty, when no signals are present, when the
elevation is absent or below `MIN_ELEVATION = 10°`, or when no signal has
a positive pseudorange. -/
def extractSat {α : Type} [LinearOrderedField α]
    (kv : String × SatelliteState α) : Option (ObsEntry α) :=
  match kv.2.sat_pos_ecef with
  | none => none
  | some pos =>
    if pos.length = 0 then none
    else if kv.2.signals.isEmpty then none
    else
      match kv.2.elevation with
      | none => none
      | some el =>
        if el < 10 then none
        else
          match firstPositivePR kv.2.signals with
          | none => none
          | some pr =>
            some { sat_key := kv.1, pseudorange := pr, elevation := el,
                   azimuth := kv.2.azimuth.getD 0, sat_pos := pos,
                   satellite := kv.2 }

/-- `SPPPositioner._extract_observations`: `None` when no satellite
survives the filter. -/
def extractObservations {α : Type} [LinearOrderedField α]
    (epoch : EpochObservation α) : Option (List (ObsEntry α)) :=
  let observations := epoch.satellites.filterMap extractSat
  if observations.length > 0 then some observations else none

/-- `SPPPositioner.process_epoch`: extract the usable observations, refuse
below `MIN_SATELLITES`, otherwise run the least-squares stage. -/
def processEpoch {α β : Type} [LinearOrderedField α]
    (solveLS : List (ObsEntry α) → Option β)
    (epoch : EpochObservation α) : Option β :=
  match extractObservations epoch with
  | none => none
  | some observations =>
    if observations.length < MIN_SATELLITES then none
    else solveLS observations

/-- Statement-side predicate: the satellite qualifies for the solver
(structured exactly like the `extractSat` filter cascade). -/
def qualifies {α : Type} [LinearOrderedField α] (sat : SatelliteState α) : Bool :=
  match sat.sat_pos_ecef with
  | none => false
  | some pos =>
    if pos.length = 0 then false
    else if sat.signals.isEmpty then false
    else
      match sat.elevation with
      | none => false
      | some el =>
        if el < 10 then false
        else (firstPositivePR sat.signals).isSome

/-- Number of satellites of the epoch that qualify for the solver. -/
def countQualified {α : Type} [LinearOrderedField α]
    (epoch : EpochObservation α) : ℕ :=
  epoch.satellites.countP (fun kv => qualifies kv.2)

/-! ### core/spp_positioning.py — `_solve_least_squares` residuals

Within the iteration loop (lines 246–266) the residual is
`b[i] = pr_meas - (rho + x_curr[3])` with the clock state in meters; the
final reported residuals (lines 310–318) instead compute
`pr_computed = rho + x_curr[3] / CLIGHT`, dividing the meter-valued clock
state by the speed of light. -/

def CLIGHT : ℝ := 299792458

/-- One observation as seen by `_solve_least_squares`. -/
structure SolverObs where
  pseudorange : ℝ
  elevation : ℝ
  sat_pos : ℝ × ℝ × ℝ

/-- `np.linalg.norm` of a 3-vector. -/
noncomputable def norm3 (v : ℝ × ℝ × ℝ) : ℝ :=
  Real.sqrt (v.1 ^ 2 + v.2.1 ^ 2 + v.2.2 ^ 2)

def vsub3 (a b : ℝ × ℝ × ℝ) : ℝ × ℝ × ℝ :=
  (a.1 - b.1, a.2.1 - b.2.1, a.2.2 - b.2.2)

/-- In-loop residual (line 266): `b[i] = pr_meas - (rho + x_curr[3])`,
clock bias in meters. -/
noncomputable def loopResidual (obs : SolverObs) (pos : ℝ × ℝ × ℝ) (x3 : ℝ) : ℝ :=
  obs.pseudorange - (norm3 (vsub3 obs.sat_pos pos) + x3)

/-- Final reported residual (line 316–317):
`residual = pr_meas - (rho + x_curr[3] / CLIGHT)`. -/
noncomputable def finalResidual (obs : SolverObs) (pos : ℝ × ℝ × ℝ) (x3 : ℝ) : ℝ :=
  obs.pseudorange - (norm3 (vsub3 obs.sat_pos pos) + x3 / CLIGHT)

/-- The residual list stored into `PositioningResult.residuals` and fed to
the variance of unit weight (lines 310–323). -/
noncomputable def finalResiduals (observations : List SolverObs)
    (pos : ℝ × ℝ × ℝ) (x3 : ℝ) : List ℝ :=
  observations.map (fun obs => finalResidual obs pos x3)

/-! ### core/BE2pos.py — broadcast-ephemeris satellite position

Floats are modelled as reals; `math.pi` as `π`; Python's float `%` as
`pymod` (`a - b * floor(a / b)`, the representative with the sign of the
modulus). -/

def GM_WGS84 : ℝ := 3.986005e14
def WE_WGS84 : ℝ := 7.2921151467e-5
def GM_PZ90 : ℝ := 3.9860044e14
def WE_PZ90 : ℝ := 7.292115e-5
def J2_PZ90 : ℝ := 1082625.75e-9
def A_PZ90 : ℝ := 6378136

noncomputable def pymod (a b : ℝ) : ℝ := a - b * ⌊a / b⌋

/-- `check_t`: repair half-week over/underflow of a GPS time difference. -/
noncomputable def check_t (t : ℝ) : ℝ :=
  if t > 302400 then t - 2 * 302400
  else if t < -302400 then t + 2 * 302400
  else t

/-- One Kepler fixed-point assignment `E = M + ecc * sin(E)` (line 90). -/
noncomputable def keplerStep (M ecc E : ℝ) : ℝ := M + ecc * Real.sin E

/-- The eccentric-anomaly iteration of `SatPos_brdc` (lines 87–93):
`for _ in range(10):` update `E`, compute `dE = (E - E_old) % (2*pi)` and
break when `|dE| < 1e-12`. -/
noncomputable def keplerLoop (M ecc : ℝ) : ℕ → ℝ → ℝ
  | 0, E => E
  | n + 1, E =>
    if |pymod (keplerStep M ecc E - E) (2 * Real.pi)| < 1e-12 then
      keplerStep M ecc E
    else
      keplerLoop M ecc n (keplerStep M ecc E)

/-- The reduced mean anomaly `M = (M0 + n*tk + 2*pi) % (2*pi)`
(lines 79–84). -/
noncomputable def meanAnomaly (t : ℝ) (eph : KepEph ℝ) : ℝ :=
  let A := eph.sqrtA * eph.sqrtA
  let tk := check_t (t - eph.toe)
  let n0 := Real.sqrt (GM_WGS84 / A ^ 3)
  let n := n0 + eph.deltaN
  pymod (eph.m0 + n * tk + 2 * Real.pi) (2 * Real.pi)

/-- The value the fixed-point iteration returns (the loop starts at
`E = M` and runs at most 10 rounds). -/
noncomputable def eccAnomalyLoop (t : ℝ) (eph : KepEph ℝ) : ℝ :=
  keplerLoop (meanAnomaly t eph) eph.ecc 10 (meanAnomaly t eph)

/-- The normalized eccentric anomaly `E = (E + 2*pi) % (2*pi)` (line 95). -/
noncomputable def eccAnomaly (t : ℝ) (eph : KepEph ℝ) : ℝ :=
  pymod (eccAnomalyLoop t eph + 2 * Real.pi) (2 * Real.pi)

/-- `math.atan2(y, x)` (quadrant-aware arctangent). -/
noncomputable def atan2 (y x : ℝ) : ℝ :=
  if 0 < x then Real.arctan (y / x)
  else if x < 0 ∧ 0 ≤ y then Real.arctan (y / x) + Real.pi
  else if x < 0 ∧ y < 0 then Real.arctan (y / x) - Real.pi
  else if x = 0 ∧ 0 < y then Real.pi / 2
  else if x = 0 ∧ y < 0 then -(Real.pi / 2)
  else 0

/-- `SatPos_brdc` (position part; the velocity block of the source is not
used by any consumer modelled here). -/
noncomputable def SatPos_brdc (t : ℝ) (eph : KepEph ℝ) : ℝ × ℝ × ℝ :=
  let A := eph.sqrtA * eph.sqrtA
  let tk := check_t (t - eph.toe)
  let E := eccAnomaly t eph
  let v := atan2 (Real.sqrt (1 - eph.ecc ^ 2) * Real.sin E) (Real.cos E - eph.ecc)
  let u0 := pymod (v + eph.omega) (2 * Real.pi)
  let u := u0 + eph.cuc * Real.cos (2 * u0) + eph.cus * Real.sin (2 * u0)
  let r := A * (1 - eph.ecc * Real.cos E)
    + eph.crc * Real.cos (2 * u0) + eph.crs * Real.sin (2 * u0)
  let i := eph.i0 + eph.idot * tk
    + eph.cic * Real.cos (2 * u0) + eph.cis * Real.sin (2 * u0)
  let Om := pymod
    (eph.omega0 + (eph.omegaDot - WE_WGS84) * tk - WE_WGS84 * eph.toe + 2 * Real.pi)
    (2 * Real.pi)
  let x1 := Real.cos u * r
  let y1 := Real.sin u * r
  (x1 * Real.cos Om - y1 * Real.cos i * Real.sin Om,
   x1 * Real.sin Om + y1 * Real.cos i * Real.cos Om,
   y1 * Real.sin i)

def vadd3 (a b : ℝ × ℝ × ℝ) : ℝ × ℝ × ℝ :=
  (a.1 + b.1, a.2.1 + b.2.1, a.2.2 + b.2.2)

def smul3 (c : ℝ) (a : ℝ × ℝ × ℝ) : ℝ × ℝ × ℝ :=
  (c * a.1, c * a.2.1, c * a.2.2)

/-- `accel_pz90`: GLONASS acceleration in PZ-90 (gravity, J2, centrifugal
and Coriolis terms, plus the broadcast lunisolar acceleration). -/
noncomputable def accel_pz90 (r v accSl : ℝ × ℝ × ℝ) : ℝ × ℝ × ℝ :=
  let rn := Real.sqrt (r.1 ^ 2 + r.2.1 ^ 2 + r.2.2 ^ 2)
  let term1 := -GM_PZ90 / rn ^ 3
  let term2 := 1.5 * (-J2_PZ90) * GM_PZ90 * A_PZ90 ^ 2 / rn ^ 5
  let term3 := 5 * r.2.2 ^ 2 / rn ^ 2
  (term1 * r.1 + term2 * r.1 * (1 - term3)
      + WE_PZ90 ^ 2 * r.1 + 2 * WE_PZ90 * v.2.1 + accSl.1,
   term1 * r.2.1 + term2 * r.2.1 * (1 - term3)
      + WE_PZ90 ^ 2 * r.2.1 - 2 * WE_PZ90 * v.1 + accSl.2.1,
   term1 * r.2.2 + term2 * r.2.2 * (3 - term3) + accSl.2.2)

/-- One RK4 step of step size `h`. -/
noncomputable def rk4StepOnce (accSl : ℝ × ℝ × ℝ) (h : ℝ)
    (pos vel : ℝ × ℝ × ℝ) : (ℝ × ℝ × ℝ) × (ℝ × ℝ × ℝ) :=
  let v1 := vel
  let a1 := accel_pz90 pos v1 accSl
  let x2 := vadd3 pos (smul3 (h / 2) v1)
  let v2 := vadd3 vel (smul3 (h / 2) a1)
  let a2 := accel_pz90 x2 v2 accSl
  let x3 := vadd3 pos (smul3 (h / 2) v2)
  let v3 := vadd3 vel (smul3 (h / 2) a2)
  let a3 := accel_pz90 x3 v3 accSl
  let x4 := vadd3 pos (smul3 h v3)
  let v4 := vadd3 vel (smul3 h a3)
  let a4 := accel_pz90 x4 v4 accSl
  (vadd3 pos (smul3 (h / 6) (vadd3 (vadd3 v1 (smul3 2 v2)) (vadd3 (smul3 2 v3) v4))),
   vadd3 vel (smul3 (h / 6) (vadd3 (vadd3 a1 (smul3 2 a2)) (vadd3 (smul3 2 a3) a4))))

/-- The `while True` loop of `runge_kutta_4`, with fuel (the loop reaches
`t_target` after at most one step per 30 s of propagation interval plus
the final partial step; the fuel supplied by `runge_kutta_4` covers
that). -/
noncomputable def rk4Loop (accSl : ℝ × ℝ × ℝ) (tTarget : ℝ) :
    ℕ → ℝ → ℝ → (ℝ × ℝ × ℝ) → (ℝ × ℝ × ℝ) → (ℝ × ℝ × ℝ) × (ℝ × ℝ × ℝ)
  | 0, _, _, pos, vel => (pos, vel)
  | fuel + 1, t, h, pos, vel =>
    let timeDiff := tTarget - t
    if (0 < h ∧ timeDiff ≤ h) ∨ (h < 0 ∧ h ≤ timeDiff) then
      if |timeDiff| < 1e-9 then (pos, vel)
      else rk4StepOnce accSl timeDiff pos vel
    else
      let pv := rk4StepOnce accSl h pos vel
      rk4Loop accSl tTarget fuel (t + h) h pv.1 pv.2

/-- `runge_kutta_4(toe, pos, vel, acc, t_target)`. -/
noncomputable def runge_kutta_4 (toe : ℝ) (pos vel acc : ℝ × ℝ × ℝ)
    (tTarget : ℝ) : (ℝ × ℝ × ℝ) × (ℝ × ℝ × ℝ) :=
  let stepSign : ℝ := if 0 ≤ tTarget - toe then 1 else -1
  let h := 30 * stepSign
  rk4Loop acc tTarget (⌈|tTarget - toe| / 30⌉.toNat + 1) toe h pos vel

/-- `SatPos_brdc_glo`: state converted from km to m, then RK4 from `Tb`. -/
noncomputable def SatPos_brdc_glo (tSow : ℝ) (eph : GloEph ℝ) :
    (ℝ × ℝ × ℝ) × (ℝ × ℝ × ℝ) :=
  runge_kutta_4 eph.tb
    (smul3 1000 (eph.x, eph.y, eph.z))
    (smul3 1000 (eph.vx, eph.vy, eph.vz))
    (smul3 1000 (eph.ax, eph.ay, eph.az)) tSow

/-- core/global_config.py: the configuration fields the decode path reads. -/
structure Config where
  approx_rec_pos : List ℝ
  target_systems : List String

/-- `np.all(np.array(rec_pos) == 0)` (vacuously true for an empty list). -/
noncomputable def allZero (l : List ℝ) : Bool :=
  l.all (fun x => decide (x = 0))

def tripleToList (p : ℝ × ℝ × ℝ) : List ℝ := [p.1, p.2.1, p.2.2]

/-- `brdc2pos(eph_data, sys_type, t_obs_gpst)`: `None` when the configured
approximate receiver position is all zeros, otherwise the propagated ECEF
position.  A variant/sys_type mismatch (a Keplerian record routed to the
GLONASS branch or vice versa) would raise `KeyError` in the source and is
modelled as `none`; the decode path never produces it. -/
noncomputable def brdc2pos (cfg : Config) (eph : Eph ℝ) (sysType : String)
    (tObs : ℝ) : Option (List ℝ) :=
  if allZero cfg.approx_rec_pos then none
  else
    match eph, decide (sysType = "GLO") with
    | Eph.glo g, true => some (tripleToList (SatPos_brdc_glo tObs g).1)
    | Eph.kep k, false => some (tripleToList (SatPos_brdc tObs k))
    | _, _ => none

/-- The near-parabolic ephemeris used to refute the Kepler residual claim:
`ecc = 0.99`, `M0 = 0.01`, `toe = 0`, all perturbations zero. -/
noncomputable def eph99 : KepEph ℝ :=
  { satType := "GPS", prn := 1, week := 2308, toe := 0, toc := 0, sqrtA := 5154
    ecc := 99 / 100, m0 := 1 / 100, omega := 0, i0 := 0, omega0 := 0
    deltaN := 0, omegaDot := 0, idot := 0, cuc := 0, cus := 0, crc := 0
    crs := 0, cic := 0, cis := 0, af0 := 0, af1 := 0, af2 := 0, health := 0 }

/-! ### core/geo_utils.py — frequency table and azimuth/elevation -/

/-- `get_freq(sig_id, sat_key, fcn)` (frequency component; the returned
wavelength is `CLIGHT / freq` and is unused by the decode path; an
unknown system/band yields `0.0`). -/
noncomputable def get_freq (sigId satKey : String) (fcn : ℤ) : ℝ :=
  let band := sigId.take 1
  let sys := satKey.take 1
  if sys = "G" ∨ sys = "J" then
    if band = "1" then 1575.42e6 else if band = "2" then 1227.60e6
    else if band = "5" then 1176.45e6 else if band = "6" then 1278.75e6 else 0
  else if sys = "E" then
    if band = "1" then 1575.42e6 else if band = "5" then 1176.45e6
    else if band = "7" then 1207.14e6 else if band = "8" then 1191.795e6
    else if band = "6" then 1278.75e6 else 0
  else if sys = "C" then
    if band = "1" then 1575.42e6 else if band = "2" then 1561.098e6
    else if band = "5" then 1176.45e6 else if band = "7" then 1207.140e6
    else if band = "8" then 1191.795e6 else if band = "6" then 1268.52e6 else 0
  else if sys = "R" then
    if band = "1" then 1602.0e6 + 0.5625e6 * (fcn : ℝ)
    else if band = "2" then 1246.0e6 + 0.4375e6 * (fcn : ℝ)
    else 0
  else 0

/-- `ecef2lla` (latitude/longitude only, as in geo_utils). -/
noncomputable def ecef2lla (x y z : ℝ) : ℝ × ℝ :=
  let a : ℝ := 6378137.0
  let e2 : ℝ := 6.69437999014e-3
  let b := a * Real.sqrt (1 - e2)
  let ep := Real.sqrt ((a ^ 2 - b ^ 2) / b ^ 2)
  let p := Real.sqrt (x ^ 2 + y ^ 2)
  if p = 0 then (0, 0)
  else
    let th := atan2 (a * z) (b * p)
    let lon := atan2 y x
    let lat := atan2 (z + ep * ep * b * Real.sin th ^ 3)
      (p - e2 * a * Real.cos th ^ 3)
    (lat, lon)

/-- `ecef2enu(sat_pos, rec_pos)`: rotation of the difference vector into
the receiver's ENU frame. -/
noncomputable def ecef2enu (sat rec : ℝ × ℝ × ℝ) : ℝ × ℝ × ℝ :=
  let diff := vsub3 sat rec
  let ll := ecef2lla rec.1 rec.2.1 rec.2.2
  let sl := Real.sin ll.1
  let cl := Real.cos ll.1
  let slon := Real.sin ll.2
  let clon := Real.cos ll.2
  (-slon * diff.1 + clon * diff.2.1,
   -(sl * clon) * diff.1 - sl * slon * diff.2.1 + cl * diff.2.2,
   cl * clon * diff.1 + cl * slon * diff.2.1 + sl * diff.2.2)

def listToTriple (l : List ℝ) : ℝ × ℝ × ℝ :=
  (l.getD 0 0, l.getD 1 0, l.getD 2 0)

/-- `calculate_az_el(sat_ecef, rec_ecef)` in degrees. -/
noncomputable def calculate_az_el (sat rec : ℝ × ℝ × ℝ) : ℝ × ℝ :=
  if allZero [rec.1, rec.2.1, rec.2.2] then (0, 0)
  else
    let enu := ecef2enu sat rec
    let az0 := 180 / Real.pi * atan2 enu.1 enu.2.1
    let az := if az0 < 0 then az0 + 360 else az0
    let rnorm := Real.sqrt (enu.1 ^ 2 + enu.2.1 ^ 2 + enu.2.2 ^ 2)
    let el := 180 / Real.pi * Real.arcsin (enu.2.2 / rnorm)
    (az, el)

/-! ### core/rtcm_handler.py — `_handle_msm_obs`

An MSM message is modelled by the attributes the handler reads: the
system-specific epoch-time field (ms, `None` when the attribute is
absent), the per-cell `CELLPRN_ii`/`CELLSIG_ii`, the satellite-indexed
rough range/rate `DF397/DF398/DF399` and the cell-indexed fine fields
`DF404/DF405/DF406/DF408/DF407/DF420` (`getattr` defaults of the source
are the `Option`-free fields' values when absent). -/

structure MSMMsg where
  identity : String
  epochTimeMs : Option ℚ
  cellPrn : ℕ → Option ℕ
  cellSig : ℕ → Option String
  df397 : ℕ → Option ℤ
  df398 : ℕ → ℚ
  df399 : ℕ → Option ℤ
  df404 : ℕ → Option ℚ
  df405 : ℕ → Option ℚ
  df406 : ℕ → Option ℚ
  df408 : ℕ → ℚ
  df407 : ℕ → ℤ
  df420 : ℕ → ℤ

/-- The `sys_config` table of `_handle_msm_obs` (prefix `113` of the
dispatch is absent here, as in the source's table). -/
def sysConfig (pre : String) : Option (String × String) :=
  if pre = "107" then some ("G", "GPS")
  else if pre = "108" then some ("R", "GLO")
  else if pre = "109" then some ("E", "GAL")
  else if pre = "111" then some ("J", "QZS")
  else if pre = "112" then some ("C", "BDS")
  else none

/-- The `CELLPRN_01..64` scan (lines 340–351): collect `(cell index, prn)`
until the first absent attribute, at most 64 cells. -/
def scanCellsAux (msg : MSMMsg) : ℕ → ℕ → List (ℕ × ℕ)
  | 0, _ => []
  | fuel + 1, i =>
    match msg.cellPrn i with
    | none => []
    | some prn => (i, prn) :: scanCellsAux msg fuel (i + 1)

def scanCells (msg : MSMMsg) : List (ℕ × ℕ) := scanCellsAux msg 64 1

/-- `sorted(unique_prns)`. -/
def sortedPrnsOf (cells : List (ℕ × ℕ)) : List ℕ :=
  ((cells.map Prod.snd).dedup).insertionSort (· ≤ ·)

/-- `prn_to_sat_idx`: 1-based rank of the PRN in the sorted unique list. -/
def satIdxOf (sorted : List ℕ) (prn : ℕ) : ℕ := sorted.indexOf prn + 1

def pad2 (n : ℕ) : String := if n < 10 then "0" ++ toString n else toString n

/-- `f"{sys_id}{prn:02d}"`. -/
def mkSatKey (sysId : String) (prn : ℕ) : String := sysId ++ pad2 prn

noncomputable def RANGE_MS : ℝ := CLIGHT / 1000

/-- Rough range `DF397*c/1000 + DF398*c/1000` (0 when DF397 is absent or
255). -/
noncomputable def roughRange (msg : MSMMsg) (satIdx : ℕ) : ℝ :=
  match msg.df397 satIdx with
  | some v => if v ≠ 255 then (v : ℝ) * RANGE_MS + (msg.df398 satIdx : ℝ) * RANGE_MS else 0
  | none => 0

/-- Rough rate `DF399` (0 when absent or -8192). -/
noncomputable def roughRate (msg : MSMMsg) (satIdx : ℕ) : ℝ :=
  match msg.df399 satIdx with
  | some v => if v ≠ -8192 then (v : ℝ) else 0
  | none => 0

/-- The per-cell observation assembly (lines 410–462): pseudorange,
carrier phase, Doppler with their sentinel tests, then the
`snr > 0 or carrier_phase != 0` admission check. -/
noncomputable def cellSignal (msg : MSMMsg) (i satIdx : ℕ) (sigId : String)
    (freq : ℝ) : Option (SignalData ℝ) :=
  let rough_range := roughRange msg satIdx
  let rough_rate := roughRate msg satIdx
  let pseudorange : ℝ :=
    match msg.df405 i with
    | some f =>
      if rough_range ≠ 0 ∧ f ≠ -524288 then rough_range + (f : ℝ) * RANGE_MS else 0
    | none => 0
  let carrier : ℝ :=
    match msg.df406 i with
    | some f =>
      if rough_range ≠ 0 ∧ f ≠ -8388608 then
        (if 0 < freq then (rough_range + (f : ℝ) * RANGE_MS) * freq / CLIGHT else 0)
      else 0
    | none => 0
  let doppler : ℝ :=
    match msg.df404 i with
    | some f =>
      if rough_rate ≠ -8192 ∧ f ≠ -16384 then
        (if 0 < freq then -((rough_rate + (f : ℝ) * 0.0001) * freq / CLIGHT) else 0)
      else 0
    | none => 0
  let snr : ℝ := (msg.df408 i : ℝ)
  if 0 < snr ∨ carrier ≠ 0 then
    some { signal_id := sigId, snr := snr, phase := carrier,
           pseudorange := pseudorange, lock_time := msg.df407 i,
           half_cycle := msg.df420 i, doppler := doppler }
  else none

/-- Creation of a new `SatelliteState` (lines 367–392): position from the
ephemeris cache via `brdc2pos` when cached, then azimuth/elevation when an
approximate receiver position is configured and nonzero. -/
noncomputable def mkSatState (cache : List (String × Eph ℝ)) (cfg : Config)
    (sysId sysType : String) (epochTime : ℝ) (satKey : String) (prn : ℕ) :
    SatelliteState ℝ :=
  let st0 : SatelliteState ℝ := { sys_id := sysId, prn := prn }
  match dictLookup cache satKey with
  | none => st0
  | some eph =>
    match brdc2pos cfg eph sysType epochTime with
    | none => st0
    | some satPos =>
      let st1 := { st0 with sat_pos_ecef := some satPos }
      if cfg.approx_rec_pos ≠ [] ∧ allZero cfg.approx_rec_pos = false then
        let azel := calculate_az_el (listToTriple satPos) (listToTriple cfg.approx_rec_pos)
        { st1 with azimuth := some azel.1, elevation := some azel.2 }
      else st1

/-- The signal-parsing tail of a cell iteration (lines 397–462): read
`CELLSIG` (`continue` when absent), look up the GLONASS frequency
channel, compute the frequency and, when the assembled observation passes
the admission check, store it into the satellite's `signals` dict. -/
noncomputable def processSignal (cache : List (String × Eph ℝ)) (sysId : String)
    (msg : MSMMsg) (sorted : List ℕ) (i prn : ℕ)
    (sats : List (String × SatelliteState ℝ)) (satState : SatelliteState ℝ) :
    List (String × SatelliteState ℝ) :=
  match msg.cellSig i with
  | none => sats
  | some sigId =>
    let fcn : ℤ :=
      if sysId = "R" then
        match dictLookup cache (mkSatKey sysId prn) with
        | some eph => eph.freqChannelD
        | none => 0
      else 0
    let freq := get_freq sigId (mkSatKey sysId prn) fcn
    match cellSignal msg i (satIdxOf sorted prn) sigId freq with
    | some obs =>
      dictInsert sats (mkSatKey sysId prn)
        { satState with signals := dictInsert satState.signals sigId obs }
    | none => sats

/-- The `for i in range(1, n_cell_found + 1)` satellite/signal loop
(lines 358–462): each cell first ensures its satellite's state exists
(creating it with position and azimuth/elevation via `mkSatState`), then
parses the cell's signal.  The source's per-PRN `sat_data_cache` memoizes
`roughRange`/`roughRate`, which are deterministic in the message, so
recomputation is equivalent. -/
noncomputable def processCells (cache : List (String × Eph ℝ)) (cfg : Config)
    (sysId sysType : String) (epochTime : ℝ) (msg : MSMMsg) (sorted : List ℕ) :
    List (ℕ × ℕ) → List (String × SatelliteState ℝ) → List (String × SatelliteState ℝ)
  | [], sats => sats
  | (i, prn) :: rest, sats =>
    let pair : List (String × SatelliteState ℝ) × SatelliteState ℝ :=
      match dictLookup sats (mkSatKey sysId prn) with
      | some st => (sats, st)
      | none =>
        let st := mkSatState cache cfg sysId sysType epochTime (mkSatKey sysId prn) prn
        (dictInsert sats (mkSatKey sysId prn) st, st)
    processCells cache cfg sysId sysType epochTime msg sorted rest
      (processSignal cache sysId msg sorted i prn pair.1 pair.2)

/-- `GNSSTime.gps_to_utc_datetime` over the reals, as invoked by the
handler with the wall-clock GPS week. -/
noncomputable def gps_to_utc_real (gpsWeek : ℤ) (gpsSeconds : ℝ) : ℝ :=
  (gpsWeek : ℝ) * 604800 + gpsSeconds - 18

/-- `_handle_msm_obs` value-level semantics: the epoch the decode logic
assembles (the wall-clock dependent `current_gps_week()` /
`gps_day_of_week()` are the parameters `gpsWeekNow` / `gpsDow`).  The
`EpochObservation` construction itself raises in the source — see
`processMessageMSM` and claim C1 — this function describes the record the
construction site supplies. -/
noncomputable def handleMsmObs (cache : List (String × Eph ℝ)) (cfg : Config)
    (gpsWeekNow : ℤ) (gpsDow : ℤ) (msg : MSMMsg) : Option (EpochObservation ℝ) :=
  match sysConfig (msg.identity.take 3) with
  | none => none
  | some sysPair =>
    if sysPair.1 ∈ cfg.target_systems then
      match msg.epochTimeMs with
      | none => none
      | some tms =>
        let epochTime0 : ℝ := (tms : ℝ) / 1000
        let epochTime :=
          if sysPair.1 = "R" then
            epochTime0 - 3 * 60 * 60 + (gpsDow : ℝ) * 24 * 3600
          else epochTime0
        let cells := scanCells msg
        if cells.length = 0 then none
        else
          some { gps_time := epochTime,
                 utc := gps_to_utc_real gpsWeekNow epochTime,
                 satellites := processCells cache cfg sysPair.1 sysPair.2
                   epochTime msg (sortedPrnsOf cells) cells [] }
    else none

/-! ### data_models.py line 37 vs rtcm_handler.py line 332

The `EpochObservation` dataclass declares exactly the fields `gps_time`
and `satellites`; a dataclass `__init__` raises `TypeError` on any
unexpected keyword argument.  The handler calls
`EpochObservation(gps_time=epoch_time, utc_datetime=utc_datetime)`. -/

def epochObservationFields : List String := ["gps_time", "satellites"]

def msmEpochKwargs : List String := ["gps_time", "utc_datetime"]

/-- A dataclass `__init__` accepts a keyword-argument set iff every
keyword names a declared field. -/
def dataclassAcceptsKwargs (fields kwargs : List String) : Bool :=
  kwargs.all (fun k => fields.contains k)

/-- `process_message` on an MSM message, with the construction at
line 332 checked against the dataclass's declared fields: a rejected
keyword raises `TypeError`, which propagates out of `process_message`. -/
noncomputable def processMessageMSM (cache : List (String × Eph ℝ)) (cfg : Config)
    (gpsWeekNow : ℤ) (gpsDow : ℤ) (msg : MSMMsg) :
    Except String (Option (EpochObservation ℝ)) :=
  match sysConfig (msg.identity.take 3) with
  | none => Except.ok none
  | some sysPair =>
    if sysPair.1 ∈ cfg.target_systems then
      match msg.epochTimeMs with
      | none => Except.ok none
      | some _ =>
        if dataclassAcceptsKwargs epochObservationFields msmEpochKwargs then
          Except.ok (handleMsmObs cache cfg gpsWeekNow gpsDow msg)
        else
          Except.error "TypeError: unexpected keyword argument utc_datetime"
    else Except.ok none

/-- Whether an ephemeris record variant matches the dispatch branch that
`brdc2pos` routes it to (always the case for records decoded under the
same satellite-key prefix). -/
def ephCompat (e : Eph ℝ) (sysType : String) : Prop :=
  match e with
  | Eph.glo _ => sysType = "GLO"
  | Eph.kep _ => sysType ≠ "GLO"

/-- Concrete MSM7 message `1077` (GPS) with a single satellite cell,
PRN 1, and no signal attributes. -/
def msg1077 : MSMMsg :=
  { identity := "1077", epochTimeMs := some 0
    cellPrn := fun i => if i = 1 then some 1 else none
    cellSig := fun _ => none
    df397 := fun _ => none, df398 := fun _ => 0, df399 := fun _ => none
    df404 := fun _ => none, df405 := fun _ => none, df406 := fun _ => none
    df408 := fun _ => 0, df407 := fun _ => 0, df420 := fun _ => 0 }

/-- The default configuration (`approx_rec_pos = [0, 0, 0]`). -/
def cfgDefault : Config :=
  { approx_rec_pos := [0, 0, 0], target_systems := ["G", "R", "E", "C"] }

/-- A configuration with a nonzero approximate receiver position. -/
def cfgNZ : Config :=
  { approx_rec_pos := [6378137, 0, 0], target_systems := ["G", "R", "E", "C"] }

/-- An ephemeris cache holding a Keplerian record for `G01`. -/
noncomputable def cacheG01 : List (String × Eph ℝ) := [("G01", Eph.kep eph99)]

/-- A GLONASS state-vector record (message-1020 shape) for `R01`. -/
noncomputable def gloR01 : GloEph ℝ :=
  { prn := 1, tb := 0, tk := 0, freqChannel := 0, x := 0, y := 0, z := 0
    vx := 0, vy := 0, vz := 0, ax := 0, ay := 0, az := 0
    tauN := 0, gammaN := 0, health := 0 }

/-- An ordinary mixed-constellation cache: a Keplerian record under `G01`
and a GLONASS record under `R01` (each variant under its own system's
key prefix, as the ephemeris handlers store them). -/
noncomputable def cacheMixed : List (String × Eph ℝ) :=
  [("G01", Eph.kep eph99), ("R01", Eph.glo gloR01)]

/-- The epoch decoded from `msg1077` against the mixed cache under `cfgNZ`
(defaulting to an empty epoch, which the decode in fact never yields on
this input). -/
noncomputable def epochMixed : EpochObservation ℝ :=
  (handleMsmObs cacheMixed cfgNZ 2300 0 msg1077).getD
    { gps_time := 0, utc := 0, satellites := [] }

end RTGS

/-! ## Claim theorems -/

open RTGS

/-- Claim C10: for every GPS week `w ≥ 0` and seconds-of-week `s ∈ [0, 604800)`
representable to whole microseconds, `utc_to_gps (gps_to_utc_datetime w s)`
returns exactly `(w, s)`: the fixed 18-second leap offset cancels, so the
GPS→UTC→GPS round trip is the identity, including for `s < 18`. -/
theorem gnss_time_roundtrip (w : ℤ) (hw : 0 ≤ w) (k : ℕ) (s : ℚ)
    (hs : s = (k : ℚ) / 1000000) (hlt : s < 604800) :
    utc_to_gps (gps_to_utc_datetime w s) = (w, s) := by
  have hs0 : 0 ≤ s := by
    rw [hs]; positivity
  have hq : (w * SECONDS_PER_WEEK + s - LEAP_SECONDS + LEAP_SECONDS)
      = (w : ℚ) * 604800 + s := by
    rw [SECONDS_PER_WEEK, LEAP_SECONDS]; ring
  have hdiv : ((w : ℚ) * 604800 + s) / SECONDS_PER_WEEK = (w : ℚ) + s / 604800 := by
    rw [SECONDS_PER_WEEK]
    norm_num
    ring
  have hfr : ⌊s / (604800 : ℚ)⌋ = 0 := by
    rw [Int.floor_eq_zero_iff, Set.mem_Ico]
    refine ⟨by positivity, ?_⟩
    exact (div_lt_one (by norm_num)).2 hlt
  have hweek : ⌊(w * SECONDS_PER_WEEK + s - LEAP_SECONDS + LEAP_SECONDS) / SECONDS_PER_WEEK⌋ = w := by
    rw [hq, hdiv, Int.floor_int_add, hfr, add_zero]
  unfold utc_to_gps gps_to_utc_datetime
  simp only [hweek]
  rw [Prod.mk.injEq]
  refine ⟨rfl, ?_⟩
  rw [SECONDS_PER_WEEK, LEAP_SECONDS]
  ring

/-- Witness for C10 at `w = 2300`, `s = 5 + 1/1000000` (five seconds and one
microsecond into the week, below the 18-second leap offset). -/
theorem gnss_time_roundtrip_witness :
    utc_to_gps (gps_to_utc_datetime 2300 ((5000001 : ℚ) / 1000000)) =
      (2300, (5000001 : ℚ) / 1000000) :=
  gnss_time_roundtrip 2300 (by norm_num) 5000001 _ rfl (by norm_num)

/-- On an open buffer whose content fits its capacity, every non-blocking
`put` succeeds and the resulting content is the newest `maxsize` elements
of the old content followed by the puts. -/
theorem RingBuffer.putAll_open {α : Type} :
    ∀ (xs : List α) (rb : RingBuffer α), rb.closed = false →
      rb.buffer.length ≤ rb.maxsize →
      (rb.putAll xs).1 = xs.map (fun _ => true) ∧
      (rb.putAll xs).2.buffer
        = (rb.buffer ++ xs).drop (rb.buffer.length + xs.length - rb.maxsize) ∧
      (rb.putAll xs).2.closed = false ∧
      (rb.putAll xs).2.maxsize = rb.maxsize := by
  intro xs
  induction xs with
  | nil =>
    intro rb hcl hlen
    simp only [RingBuffer.putAll, List.map_nil, List.length_nil, Nat.add_zero,
      List.append_nil]
    have h0 : rb.buffer.length - rb.maxsize = 0 := by omega
    simp [h0, hcl]
  | cons x xs ih =>
    intro rb hcl hlen
    have hput : rb.put x = (true,
        { rb with buffer := (rb.buffer ++ [x]).drop ((rb.buffer ++ [x]).length - rb.maxsize) }) := by
      simp [RingBuffer.put, dequeAppend, hcl]
    have hL : (rb.buffer ++ [x]).length = rb.buffer.length + 1 := by simp
    have hlen' : ((rb.buffer ++ [x]).drop ((rb.buffer ++ [x]).length - rb.maxsize)).length
        ≤ rb.maxsize := by
      rw [List.length_drop]
      omega
    have ihh := ih
      { rb with buffer := (rb.buffer ++ [x]).drop ((rb.buffer ++ [x]).length - rb.maxsize) }
      hcl hlen'
    refine ⟨?_, ?_, ?_, ?_⟩
    · simp only [RingBuffer.putAll, hput, List.map_cons]
      rw [ihh.1]
    · simp only [RingBuffer.putAll, hput]
      rw [ihh.2.1]
      have hle : (rb.buffer ++ [x]).length - rb.maxsize ≤ (rb.buffer ++ [x]).length :=
        Nat.sub_le _ _
      simp only [List.length_drop]
      rw [← List.drop_append_of_le_length hle, List.drop_drop]
      have hcat : rb.buffer ++ x :: xs = (rb.buffer ++ [x]) ++ xs := by
        simp
      rw [hcat]
      congr 1
      simp only [List.length_append, List.length_cons, List.length_nil] at *
      omega
    · simp only [RingBuffer.putAll, hput]
      exact ihh.2.2.1
    · simp only [RingBuffer.putAll, hput]
      exact ihh.2.2.2

/-- Claim C7: for every capacity `N ≥ 1`, a sequence of `N+1` non-blocking
puts on a fresh open ring buffer of capacity `N` all return `true` and leave
exactly the last `N` items in FIFO order; and a non-blocking put returns
`false` only if the buffer has been closed. -/
theorem ring_buffer_drop_oldest {α : Type} (N : ℕ) (hN : 1 ≤ N)
    (xs : List α) (hlen : xs.length = N + 1) :
    (((RingBuffer.init α N).putAll xs).1 = xs.map (fun _ => true) ∧
      ((RingBuffer.init α N).putAll xs).2.buffer = xs.drop 1) ∧
    ∀ (rb : RingBuffer α) (item : α), (rb.put item).1 = false → rb.closed = true := by
  constructor
  · have h := RingBuffer.putAll_open xs (RingBuffer.init α N) rfl (by simp [RingBuffer.init])
    refine ⟨h.1, ?_⟩
    have hb := h.2.1
    simp only [RingBuffer.init, List.length_nil, List.nil_append, Nat.zero_add] at hb ⊢
    rw [hb]
    congr 1
    omega
  · intro rb item hfalse
    by_contra hcl
    have hcl' : rb.closed = false := by
      cases h : rb.closed
      · rfl
      · exact absurd h hcl
    simp [RingBuffer.put, hcl'] at hfalse

/-- Witness for C7: capacity 1, two puts; both succeed and only the second
item remains. -/
theorem ring_buffer_drop_oldest_witness :
    ((RingBuffer.init ℕ 1).putAll [7, 8]).1 = [7, 8].map (fun _ => true) ∧
    ((RingBuffer.init ℕ 1).putAll [7, 8]).2.buffer = [7, 8].drop 1 :=
  (ring_buffer_drop_oldest 1 (by decide) [7, 8] (by decide)).1

/-- Key membership after a dict assignment. -/
theorem mem_dictKeys_dictInsert {κ β : Type} [DecidableEq κ] :
    ∀ (d : List (κ × β)) (k a : κ) (v : β),
      a ∈ dictKeys (dictInsert d k v) ↔ a ∈ dictKeys d ∨ a = k := by
  intro d
  induction d with
  | nil =>
    intro k a v
    simp [dictInsert, dictKeys]
  | cons kv rest ih =>
    obtain ⟨k', v'⟩ := kv
    intro k a v
    by_cases h : k' = k
    · subst h
      simp only [dictInsert, if_pos rfl, ite_true, dictKeys, List.map_cons, List.mem_cons]
      tauto
    · simp only [dictInsert, if_neg h, ite_false, dictKeys, List.map_cons, List.mem_cons]
      rw [show List.map Prod.fst (dictInsert rest k v) = dictKeys (dictInsert rest k v) from rfl,
        ih k a v]
      simp only [dictKeys]
      tauto

/-- Dict assignment preserves key uniqueness. -/
theorem dictInsert_nodup {κ β : Type} [DecidableEq κ] :
    ∀ (d : List (κ × β)) (k : κ) (v : β),
      (dictKeys d).Nodup → (dictKeys (dictInsert d k v)).Nodup := by
  intro d
  induction d with
  | nil =>
    intro k v _
    simp [dictInsert, dictKeys]
  | cons kv rest ih =>
    obtain ⟨k', v'⟩ := kv
    intro k v hnd
    simp only [dictKeys, List.map_cons, List.nodup_cons] at hnd
    by_cases h : k' = k
    · subst h
      simp only [dictInsert, if_pos rfl, ite_true, dictKeys, List.map_cons, List.nodup_cons]
      exact ⟨hnd.1, hnd.2⟩
    · simp only [dictInsert, if_neg h, ite_false, dictKeys, List.map_cons, List.nodup_cons]
      refine ⟨?_, ih k v hnd.2⟩
      intro hmem
      rw [show List.map Prod.fst (dictInsert rest k v) = dictKeys (dictInsert rest k v) from rfl,
        mem_dictKeys_dictInsert] at hmem
      rcases hmem with hmem | hmem
      · exact hnd.1 hmem
      · exact h hmem

/-- Claim C8: the ephemeris cache holds at most one record per satellite
key; a stored record is overwritten iff the incoming record's
reference-time field (`Toe` for GPS/Galileo/BeiDou, `Tb` for GLONASS)
differs from the stored one; and submitting records for `G01` with
`toe = 100`, then `100` again, then `200` performs exactly two cache
writes (initial insert, then replacement on the `toe` change). -/
theorem eph_cache_update_policy (α : Type) [DecidableEq α] :
    (∀ (cache : List (String × Eph α)) (key : String) (eph : Eph α) (tag : String),
        (dictKeys cache).Nodup → (dictKeys (updateCache cache key eph tag).1).Nodup) ∧
    (∀ (cache : List (String × Eph α)) (key : String) (eph old : Eph α) (tag : String),
        dictLookup cache key = some old →
          ((updateCache cache key eph tag).2 = true ↔ eph.get tag ≠ old.get tag) ∧
          (updateCache cache key eph tag).1 =
            (if eph.get tag ≠ old.get tag then dictInsert cache key eph else cache)) ∧
    (applyEphMessages
        [("G01", Eph.kep (kepEphWithToe 100), "Toe"),
         ("G01", Eph.kep (kepEphWithToe 100), "Toe"),
         ("G01", Eph.kep (kepEphWithToe 200), "Toe")] []).2 = 2 := by
  refine ⟨?_, ?_, ?_⟩
  · intro cache key eph tag hnd
    unfold updateCache
    cases h : dictLookup cache key with
    | none => exact dictInsert_nodup cache key eph hnd
    | some old =>
      by_cases hne : eph.get tag ≠ old.get tag
      · simp only [if_pos hne]
        exact dictInsert_nodup cache key eph hnd
      · simp only [if_neg hne]
        exact hnd
  · intro cache key eph old tag hlk
    unfold updateCache
    rw [hlk]
    by_cases hne : eph.get tag ≠ old.get tag
    · simp [if_pos hne, hne]
    · simp [if_neg hne, hne]
  · decide

/-- Witness for C8: with `G01` already cached at `toe = 100`, submitting a
record with `toe = 200` reports a write. -/
theorem eph_cache_update_policy_witness :
    (updateCache [("G01", Eph.kep (kepEphWithToe 100))] "G01"
        (Eph.kep (kepEphWithToe 200)) "Toe").2 = true :=
  (((eph_cache_update_policy ℚ).2.1 [("G01", Eph.kep (kepEphWithToe 100))]
      "G01" (Eph.kep (kepEphWithToe 200)) (Eph.kep (kepEphWithToe 100)) "Toe"
      (by decide)).1).mpr (by decide)

/-- Looking up the key just assigned returns the assigned value. -/
theorem dictLookup_dictInsert_self {κ β : Type} [DecidableEq κ] :
    ∀ (d : List (κ × β)) (k : κ) (v : β), dictLookup (dictInsert d k v) k = some v := by
  intro d
  induction d with
  | nil => intro k v; simp [dictInsert, dictLookup]
  | cons kv rest ih =>
    obtain ⟨k', v'⟩ := kv
    intro k v
    by_cases h : k' = k
    · subst h
      simp [dictInsert, dictLookup]
    · simp only [dictInsert, if_neg h, ite_false, dictLookup, if_neg h]
      exact ih k v

/-- Assigning one key leaves lookups of other keys unchanged. -/
theorem dictLookup_dictInsert_ne {κ β : Type} [DecidableEq κ] :
    ∀ (d : List (κ × β)) (k a : κ) (v : β), a ≠ k →
      dictLookup (dictInsert d k v) a = dictLookup d a := by
  intro d
  induction d with
  | nil =>
    intro k a v hne
    have hka : ¬ (k = a) := fun hh => hne hh.symm
    simp only [dictInsert, dictLookup, if_neg hka]
  | cons kv rest ih =>
    obtain ⟨k', v'⟩ := kv
    intro k a v hne
    by_cases h : k' = k
    · subst h
      have hka : ¬ (k' = a) := fun hh => hne hh.symm
      simp only [dictInsert, if_pos rfl, ite_true, dictLookup, if_neg hka]
    · simp only [dictInsert, if_neg h, ite_false, dictLookup]
      by_cases h2 : k' = a
      · simp only [if_pos h2, ite_true]
      · simp only [if_neg h2, ite_false]
        exact ih k a v hne

/-- Lookup of a key that is not among the dict's keys is `none`. -/
theorem dictLookup_eq_none {κ β : Type} [DecidableEq κ] :
    ∀ (d : List (κ × β)) (a : κ), a ∉ dictKeys d → dictLookup d a = none := by
  intro d
  induction d with
  | nil => intro a _; rfl
  | cons kv rest ih =>
    obtain ⟨k', v'⟩ := kv
    intro a ha
    simp only [dictKeys, List.map_cons, List.mem_cons] at ha
    push_neg at ha
    have hne : ¬ (k' = a) := fun hh => ha.1 hh.symm
    simp only [dictLookup, if_neg hne]
    exact ih a ha.2

/-- Last-writer-wins: after the bulk assignment `d1.update(d2)` (with
unique keys in `d2`, as for a Python dict), a key present in `d2` maps to
its `d2` value, otherwise to its `d1` value. -/
theorem dictInsertAll_lookup {κ β : Type} [DecidableEq κ] :
    ∀ (d2 d1 : List (κ × β)) (a : κ), (dictKeys d2).Nodup →
      dictLookup (dictInsertAll d1 d2) a =
        (match dictLookup d2 a with
          | some v => some v
          | none => dictLookup d1 a) := by
  intro d2
  induction d2 with
  | nil => intro d1 a _; rfl
  | cons kv rest ih =>
    obtain ⟨k2, v2⟩ := kv
    intro d1 a hnd
    simp only [dictKeys, List.map_cons, List.nodup_cons] at hnd
    have hstep : dictInsertAll d1 ((k2, v2) :: rest) = dictInsertAll (dictInsert d1 k2 v2) rest :=
      rfl
    rw [hstep, ih (dictInsert d1 k2 v2) a hnd.2]
    by_cases h : k2 = a
    · subst h
      have hrest : dictLookup rest k2 = none := dictLookup_eq_none rest k2 hnd.1
      simp [dictLookup, hrest, dictLookup_dictInsert_self]
    · simp only [dictLookup, if_neg h]
      cases hr : dictLookup rest a with
      | some v => rfl
      | none =>
        simp only
        exact dictLookup_dictInsert_ne d1 k2 a v2 (fun hh => h hh.symm)

/-- Claim C5: in the positioning thread's merge loop, a fragment whose
truncated UTC second equals the pending key is merged into the pending
epoch (satellite map assigned key-by-key, last writer wins) with no
flush; a fragment with a different key flushes the pending epoch and
replaces it; and on shutdown the pending epoch is flushed after the
processed fragments. -/
theorem merge_loop_behaviour {α : Type} [LinearOrderedField α] [FloorRing α] :
    (∀ (k : ℤ) (p e : EpochObservation α), epochKey e = k →
        mergeStep (some (k, p)) e =
          (some (k, { p with satellites := dictInsertAll p.satellites e.satellites }),
            none)) ∧
    (∀ (d1 d2 : List (String × SatelliteState α)) (key : String),
        (dictKeys d2).Nodup →
        (∀ v, dictLookup d2 key = some v →
          dictLookup (dictInsertAll d1 d2) key = some v) ∧
        (dictLookup d2 key = none →
          dictLookup (dictInsertAll d1 d2) key = dictLookup d1 key)) ∧
    (∀ (k : ℤ) (p e : EpochObservation α), epochKey e ≠ k →
        mergeStep (some (k, p)) e = (some (epochKey e, e), some p)) ∧
    (∀ (st : Option (ℤ × EpochObservation α)) (frags : List (EpochObservation α))
        (k : ℤ) (p : EpochObservation α),
        (mergeRun st frags).1 = some (k, p) →
        mergeClose st frags = (mergeRun st frags).2 ++ [p]) := by
  refine ⟨?_, ?_, ?_, ?_⟩
  · intro k p e hk
    simp [mergeStep, hk]
  · intro d1 d2 key hnd
    have h := dictInsertAll_lookup d2 d1 key hnd
    constructor
    · intro v hv
      rw [hv] at h
      exact h
    · intro hv
      rw [hv] at h
      exact h
  · intro k p e hk
    simp [mergeStep, hk]
  · intro st frags k p hfin
    simp [mergeClose, hfin]

/-- Witness for C5: merging a fragment at UTC 0.5 s into a pending epoch of
second 0. -/
theorem merge_loop_behaviour_witness :
    mergeStep (some (0, fragAt 0)) (fragAt (1/2)) =
      (some (0, { fragAt 0 with
        satellites := dictInsertAll (fragAt 0).satellites (fragAt (1/2)).satellites }),
        none) :=
  (merge_loop_behaviour).1 0 (fragAt 0) (fragAt (1/2)) (by norm_num [epochKey, fragAt])

/-- Counterexample to claim C6 as stated: fragments arriving with
truncated-second keys 0, 1, 0 produce flushed epochs with keys
`[0, 1, 0]`, which are not strictly increasing. -/
theorem merge_keys_counterexample :
    (mergeClose none [fragAt 0, fragAt 1, fragAt 0]).map epochKey = [0, 1, 0] ∧
    ¬ List.Sorted (· < ·)
        ((mergeClose none [fragAt 0, fragAt 1, fragAt 0]).map epochKey) := by
  have hmap : (mergeClose none [fragAt 0, fragAt 1, fragAt 0]).map epochKey = [0, 1, 0] := by
    norm_num [mergeClose, mergeRun, mergeStep, epochKey, fragAt, dictInsertAll]
  refine ⟨hmap, ?_⟩
  rw [hmap]
  intro hsort
  have := List.rel_of_sorted_cons hsort 0 (by simp)
  omega

/-- Auxiliary invariant for the merge loop: starting from a pending epoch
whose key bounds all arriving keys from below (arrival keys
non-decreasing), the run ends with a pending epoch carrying its own key,
and the flushed keys followed by the final pending key form a strictly
increasing chain bounded below by the starting key. -/
theorem mergeRun_monotone_aux {α : Type} [LinearOrderedField α] [FloorRing α] :
    ∀ (frags : List (EpochObservation α)) (k : ℤ) (p : EpochObservation α),
      epochKey p = k →
      List.Chain (· ≤ ·) k (frags.map epochKey) →
      ∃ k' p',
        (mergeRun (some (k, p)) frags).1 = some (k', p') ∧ epochKey p' = k' ∧
        List.Chain' (· < ·)
          (((mergeRun (some (k, p)) frags).2.map epochKey) ++ [k']) ∧
        ∀ x ∈ ((mergeRun (some (k, p)) frags).2.map epochKey) ++ [k'], k ≤ x := by
  intro frags
  induction frags with
  | nil =>
    intro k p hk _
    refine ⟨k, p, rfl, hk, ?_, ?_⟩
    · show List.Chain' (· < ·) (([] : List (EpochObservation α)).map epochKey ++ [k])
      simp
    · intro x hx
      have : x = k := by
        simpa [mergeRun] using hx
      omega
  | cons e es ih =>
    intro k p hk hch
    rw [List.map_cons, List.chain_cons] at hch
    obtain ⟨hke, hch'⟩ := hch
    by_cases heq : epochKey e = k
    · have hstep : mergeStep (some (k, p)) e =
          (some (k, { p with satellites := dictInsertAll p.satellites e.satellites }),
            none) := by
        simp [mergeStep, heq]
      have hk' : epochKey ({ p with
          satellites := dictInsertAll p.satellites e.satellites }) = k := hk
      rw [heq] at hch'
      obtain ⟨k', p', h1, h2, h3, h4⟩ :=
        ih k ({ p with satellites := dictInsertAll p.satellites e.satellites }) hk' hch'
      refine ⟨k', p', ?_, h2, ?_, ?_⟩
      · simp only [mergeRun, hstep]
        exact h1
      · simp only [mergeRun, hstep, Option.toList_none, List.nil_append]
        exact h3
      · simp only [mergeRun, hstep, Option.toList_none, List.nil_append]
        exact h4
    · have hlt : k < epochKey e := lt_of_le_of_ne hke (Ne.symm heq)
      have hstep : mergeStep (some (k, p)) e = (some (epochKey e, e), some p) := by
        simp [mergeStep, heq]
      obtain ⟨k', p', h1, h2, h3, h4⟩ := ih (epochKey e) e rfl hch'
      refine ⟨k', p', ?_, h2, ?_, ?_⟩
      · simp only [mergeRun, hstep]
        exact h1
      · simp only [mergeRun, hstep, Option.toList_some, List.singleton_append,
          List.map_cons, List.cons_append]
        rw [List.chain'_cons']
        refine ⟨?_, h3⟩
        intro h hh
        have hmem := List.mem_of_mem_head? hh
        have := h4 h hmem
        calc epochKey p = k := hk
          _ < epochKey e := hlt
          _ ≤ h := this
      · simp only [mergeRun, hstep, Option.toList_some, List.singleton_append,
          List.map_cons, List.cons_append, List.mem_cons]
        intro x hx
        rcases hx with hx | hx
        · rw [hx, hk]
        · exact le_trans hlt.le (h4 x hx)

/-- Amended claim C6: when the fragments reach the merge loop with
non-decreasing truncated-second keys, the keys of the epochs flushed to
the solver (including the shutdown flush) are strictly increasing.  As
stated — over every fragment sequence — the claim fails: an out-of-order
fragment flushes an epoch with a key smaller than a previously flushed
key (see `merge_keys_counterexample`). -/
theorem merge_flush_keys_increasing {α : Type} [LinearOrderedField α] [FloorRing α]
    (frags : List (EpochObservation α))
    (hmono : List.Chain' (· ≤ ·) (frags.map epochKey)) :
    List.Sorted (· < ·) ((mergeClose none frags).map epochKey) := by
  cases frags with
  | nil => simp [mergeClose, mergeRun]
  | cons f fs =>
    have hch : List.Chain (· ≤ ·) (epochKey f) (fs.map epochKey) := by
      rw [List.map_cons] at hmono
      exact hmono
    obtain ⟨k', p', h1, h2, h3, h4⟩ := mergeRun_monotone_aux fs (epochKey f) f rfl hch
    have hstep0 : mergeStep (none : Option (ℤ × EpochObservation α)) f =
        (some (epochKey f, f), none) := rfl
    have hclose : mergeClose none (f :: fs) =
        (mergeRun (some (epochKey f, f)) fs).2 ++ [p'] := by
      simp [mergeClose, mergeRun, hstep0, h1]
    rw [hclose, List.map_append, List.map_singleton, h2]
    exact (List.chain'_iff_pairwise.mp h3)

/-- Witness for the amended C6: three fragments at 0 s, 0.5 s and 2 s
(non-decreasing keys 0, 0, 2) flush epochs with strictly increasing keys. -/
theorem merge_flush_keys_increasing_witness :
    List.Sorted (· < ·)
      ((mergeClose none [fragAt 0, fragAt (1/2), fragAt 2]).map epochKey) :=
  merge_flush_keys_increasing [fragAt 0, fragAt (1/2), fragAt 2]
    (by norm_num [epochKey, fragAt, List.chain'_cons, List.chain'_singleton])

/-- A pseudorange returned by the signal scan is positive. -/
theorem firstPositivePR_pos {α : Type} [LinearOrderedField α] :
    ∀ (sigs : List (String × SignalData α)) (pr : α),
      firstPositivePR sigs = some pr → 0 < pr := by
  intro sigs
  induction sigs with
  | nil => intro pr h; cases h
  | cons kv rest ih =>
    intro pr h
    unfold firstPositivePR at h
    by_cases hpr : 0 < kv.2.pseudorange
    · rw [if_pos hpr] at h
      cases h
      exact hpr
    · rw [if_neg hpr] at h
      exact ih pr h

/-- The signal scan succeeds iff some signal has positive pseudorange. -/
theorem firstPositivePR_isSome_iff {α : Type} [LinearOrderedField α] :
    ∀ (sigs : List (String × SignalData α)),
      (firstPositivePR sigs).isSome = true ↔
        ∃ kv ∈ sigs, 0 < kv.2.pseudorange := by
  intro sigs
  induction sigs with
  | nil => simp [firstPositivePR]
  | cons kv rest ih =>
    unfold firstPositivePR
    by_cases hpr : 0 < kv.2.pseudorange
    · simp only [if_pos hpr, Option.isSome_some, List.mem_cons]
      constructor
      · intro _; exact ⟨kv, Or.inl rfl, hpr⟩
      · intro _; trivial
    · simp only [if_neg hpr, List.mem_cons]
      rw [ih]
      constructor
      · rintro ⟨a, ha, hp⟩
        exact ⟨a, Or.inr ha, hp⟩
      · rintro ⟨a, ha | ha, hp⟩
        · exact absurd (ha ▸ hp) hpr
        · exact ⟨a, ha, hp⟩

/-- The extract filter succeeds exactly on qualifying satellites. -/
theorem extractSat_isSome_eq_qualifies {α : Type} [LinearOrderedField α]
    (kv : String × SatelliteState α) :
    (extractSat kv).isSome = qualifies kv.2 := by
  unfold extractSat qualifies
  cases kv.2.sat_pos_ecef with
  | none => rfl
  | some pos =>
    by_cases hlen : pos.length = 0
    · simp [hlen]
    · simp only [if_neg hlen, ite_false]
      by_cases hsig : kv.2.signals.isEmpty
      · simp [hsig]
      · simp only [hsig, if_false, Bool.false_eq_true]
        cases kv.2.elevation with
        | none => rfl
        | some el =>
          by_cases hcut : el < 10
          · simp [hcut]
          · simp only [if_neg hcut, ite_false]
            cases firstPositivePR kv.2.signals with
            | none => rfl
            | some pr => rfl

/-- Every observation admitted by the extract filter has elevation at or
above the 10° cutoff and a positive pseudorange. -/
theorem extractSat_some_props {α : Type} [LinearOrderedField α]
    (kv : String × SatelliteState α) (o : ObsEntry α)
    (h : extractSat kv = some o) : (10 : α) ≤ o.elevation ∧ 0 < o.pseudorange := by
  revert h
  unfold extractSat
  cases kv.2.sat_pos_ecef with
  | none => intro h; cases h
  | some pos =>
    dsimp only
    by_cases hlen : pos.length = 0
    · rw [if_pos hlen]; intro h; cases h
    · rw [if_neg hlen]
      by_cases hsig : kv.2.signals.isEmpty
      · rw [if_pos hsig]; intro h; cases h
      · rw [if_neg hsig]
        cases kv.2.elevation with
        | none => intro h; cases h
        | some el =>
          dsimp only
          by_cases hcut : el < 10
          · rw [if_pos hcut]; intro h; cases h
          · rw [if_neg hcut]
            cases hpr : firstPositivePR kv.2.signals with
            | none => intro h; cases h
            | some pr =>
              intro h
              have hinj := Option.some.inj h
              cases hinj
              exact ⟨not_lt.mp hcut, firstPositivePR_pos _ _ hpr⟩

/-- The extracted-observation count equals the qualifying-satellite count. -/
theorem length_extract_eq_countQualified {α : Type} [LinearOrderedField α]
    (epoch : EpochObservation α) :
    (epoch.satellites.filterMap extractSat).length = countQualified epoch := by
  unfold countQualified
  generalize epoch.satellites = l
  induction l with
  | nil => rfl
  | cons kv rest ih =>
    rw [List.filterMap_cons, List.countP_cons]
    cases hx : extractSat kv with
    | none =>
      have hq : qualifies kv.2 = false := by
        rw [← extractSat_isSome_eq_qualifies, hx]
        rfl
      simp [hq, ih]
    | some o =>
      have hq : qualifies kv.2 = true := by
        rw [← extractSat_isSome_eq_qualifies, hx]
        rfl
      simp [hq, ih]

/-- Claim C3: the SPP solver stage runs only when at least `MIN_SATELLITES`
(4) satellites qualify (non-null ECEF position, non-null elevation at or
above the 10° cutoff, some signal with positive pseudorange); otherwise
`process_epoch` returns `None`; every observation admitted to the
least-squares stage has elevation ≥ cutoff and pseudorange > 0; and the
qualifying predicate is exactly the conjunction just described. -/
theorem spp_gate {α : Type} [LinearOrderedField α] (β : Type)
    (solveLS : List (ObsEntry α) → Option β) (epoch : EpochObservation α) :
    (processEpoch solveLS epoch ≠ none → MIN_SATELLITES ≤ countQualified epoch) ∧
    (countQualified epoch < MIN_SATELLITES → processEpoch solveLS epoch = none) ∧
    (∀ o ∈ (extractObservations epoch).getD [],
        (10 : α) ≤ o.elevation ∧ 0 < o.pseudorange) ∧
    (∀ sat : SatelliteState α, qualifies sat = true ↔
        (∃ pos, sat.sat_pos_ecef = some pos ∧ pos ≠ []) ∧
        (∃ el, sat.elevation = some el ∧ (10 : α) ≤ el) ∧
        (∃ sig ∈ sat.signals, 0 < sig.2.pseudorange)) := by
  have hlen := length_extract_eq_countQualified epoch
  refine ⟨?_, ?_, ?_, ?_⟩
  · intro hne
    unfold processEpoch extractObservations at hne
    by_cases hpos : (epoch.satellites.filterMap extractSat).length > 0
    · rw [if_pos hpos] at hne
      by_cases hfew : (epoch.satellites.filterMap extractSat).length < MIN_SATELLITES
      · simp only [if_pos hfew] at hne
        exact absurd rfl hne
      · rw [← hlen]
        omega
    · rw [if_neg hpos] at hne
      exact absurd rfl hne
  · intro hfew
    rw [← hlen] at hfew
    unfold processEpoch extractObservations
    by_cases hpos : (epoch.satellites.filterMap extractSat).length > 0
    · rw [if_pos hpos]
      simp only [if_pos hfew]
    · rw [if_neg hpos]
  · intro o ho
    unfold extractObservations at ho
    by_cases hpos : (epoch.satellites.filterMap extractSat).length > 0
    · rw [if_pos hpos] at ho
      simp only [Option.getD_some] at ho
      obtain ⟨kv, _, hkv⟩ := List.mem_filterMap.mp ho
      exact extractSat_some_props kv o hkv
    · rw [if_neg hpos] at ho
      simp at ho
  · intro sat
    unfold qualifies
    cases hpos : sat.sat_pos_ecef with
    | none => simp
    | some pos =>
      by_cases hlen0 : pos.length = 0
      · have : pos = [] := List.length_eq_zero.mp hlen0
        subst this
        simp
      · simp only [if_neg hlen0, ite_false]
        by_cases hsig : sat.signals.isEmpty
        · have : sat.signals = [] := List.isEmpty_iff.mp hsig
          simp [this]
        · simp only [hsig, if_false, Bool.false_eq_true]
          cases hel : sat.elevation with
          | none => simp
          | some el =>
            dsimp only
            by_cases hcut : el < 10
            · simp only [if_pos hcut, ite_true]
              constructor
              · intro h; exact absurd h (by simp)
              · rintro ⟨_, ⟨el', hel', hge⟩, _⟩
                have heq := Option.some.inj hel'
                subst heq
                exact absurd hge (not_le.mpr hcut)
            · simp only [if_neg hcut, ite_false]
              rw [firstPositivePR_isSome_iff]
              constructor
              · intro hex
                refine ⟨⟨pos, rfl, fun hh => hlen0 (by rw [hh]; rfl)⟩,
                  ⟨el, rfl, not_lt.mp hcut⟩, hex⟩
              · rintro ⟨_, _, hex⟩
                exact hex

/-- Witness for C3: an epoch with no satellites (0 qualifying, below the
minimum of 4) yields no solution. -/
theorem spp_gate_witness :
    processEpoch (fun _ : List (ObsEntry ℚ) => some (0 : ℕ))
      ({ gps_time := 0, utc := 0, satellites := [] } : EpochObservation ℚ) = none :=
  (spp_gate ℕ (fun _ => some 0)
      ({ gps_time := 0, utc := 0, satellites := [] } : EpochObservation ℚ)).2.1
    (by decide)

/-- Claim C2 at a failing input: with a satellite 5·10⁶ m away (a 3-4-5
vector), measured pseudorange `rho + 1000` and solved clock state
`X[3] = 1000` m, the in-loop residual convention (meters) gives 0, but the
residual reported in the `PositioningResult` — which also feeds the
variance of unit weight — is `1000 - 1000/c ≠ 0`: the final-residual code
divides the meter-valued clock state by `CLIGHT`, mixing units, contrary
to the specification's meters-throughout convention. -/
theorem spp_residual_clock_units :
    finalResiduals [⟨5000000 + 1000, 45, (3000000, 4000000, 0)⟩] (0, 0, 0) 1000
      = [1000 - 1000 / CLIGHT] ∧
    loopResidual ⟨5000000 + 1000, 45, (3000000, 4000000, 0)⟩ (0, 0, 0) 1000 = 0 ∧
    finalResidual ⟨5000000 + 1000, 45, (3000000, 4000000, 0)⟩ (0, 0, 0) 1000 ≠
      loopResidual ⟨5000000 + 1000, 45, (3000000, 4000000, 0)⟩ (0, 0, 0) 1000 := by
  have hnorm : norm3 (vsub3 (3000000, 4000000, 0) (0, 0, 0)) = 5000000 := by
    unfold norm3 vsub3
    simp only
    rw [show ((3000000 : ℝ) - 0) ^ 2 + ((4000000 : ℝ) - 0) ^ 2 + ((0 : ℝ) - 0) ^ 2
        = 5000000 ^ 2 by norm_num]
    exact Real.sqrt_sq (by norm_num)
  refine ⟨?_, ?_, ?_⟩
  · unfold finalResiduals finalResidual
    simp only [List.map_cons, List.map_nil, hnorm]
    norm_num
    ring
  · unfold loopResidual
    simp only [hnorm]
    norm_num
  · unfold finalResidual loopResidual
    simp only [hnorm]
    rw [CLIGHT]
    intro h
    norm_num at h

/-- Python float `%` leaves a value in `[0, b)` unchanged. -/
theorem pymod_eq_self (a b : ℝ) (hb : 0 < b) (h0 : 0 ≤ a) (hab : a < b) :
    pymod a b = a := by
  unfold pymod
  have hfl : ⌊a / b⌋ = 0 := by
    rw [Int.floor_eq_zero_iff, Set.mem_Ico]
    exact ⟨div_nonneg h0 hb.le, (div_lt_one hb).2 hab⟩
  rw [hfl]
  ring

/-- Adding one modulus before reducing is the identity on `[0, b)`. -/
theorem pymod_add_self (a b : ℝ) (hb : 0 < b) (h0 : 0 ≤ a) (hab : a < b) :
    pymod (a + b) b = a := by
  unfold pymod
  have hq : (a + b) / b = a / b + 1 := by
    field_simp
  have hfl : ⌊a / b⌋ = 0 := by
    rw [Int.floor_eq_zero_iff, Set.mem_Ico]
    exact ⟨div_nonneg h0 hb.le, (div_lt_one hb).2 hab⟩
  rw [hq, Int.floor_add_one, hfl]
  push_cast
  ring

/-- The reduced mean anomaly of `eph99` at `t = 0` is its `M0 = 0.01`
(`tk = 0`, so the mean-motion term vanishes). -/
theorem meanAnomaly_eph99 : meanAnomaly 0 eph99 = 1 / 100 := by
  unfold meanAnomaly eph99
  have hck : check_t ((0 : ℝ) - 0) = 0 := by
    unfold check_t
    norm_num
  simp only [hck, mul_zero, add_zero]
  have hpi : (3 : ℝ) < Real.pi := Real.pi_gt_three
  exact pymod_add_self (1 / 100) (2 * Real.pi) (by linarith) (by norm_num) (by linarith)

/-- On `eph99` the fixed-point iteration never meets the `1e-12` break:
starting inside `[0.01, 0.13 - n/100]` it stays inside `[0.01, 0.13]`,
advancing by at least `0.0083` every round. -/
theorem kepLoop99_bounds :
    ∀ (n : ℕ) (E : ℝ), 1 / 100 ≤ E → E ≤ 13 / 100 - (n : ℝ) / 100 →
      1 / 100 ≤ keplerLoop (1 / 100) (99 / 100) n E ∧
      keplerLoop (1 / 100) (99 / 100) n E ≤ 13 / 100 := by
  intro n
  induction n with
  | zero =>
    intro E h1 h2
    push_cast at h2
    exact ⟨h1, by simpa [keplerLoop] using by linarith⟩
  | succ n ih =>
    intro E h1 h2
    push_cast at h2
    have hn0 : (0 : ℝ) ≤ (n : ℝ) := Nat.cast_nonneg n
    have hE12 : E ≤ 12 / 100 := by linarith
    have hE0 : 0 < E := by linarith
    have hE1 : E ≤ 1 := by linarith
    have hsinlt : Real.sin E < E := Real.sin_lt hE0
    have hsingt : E - E ^ 3 / 4 < Real.sin E := Real.sin_gt_sub_cube hE0 hE1
    have hE2eq : keplerStep (1 / 100) (99 / 100) E = 1 / 100 + 99 / 100 * Real.sin E := by
      unfold keplerStep
      ring
    set E2 := keplerStep (1 / 100) (99 / 100) E with hE2def
    have hcube : E ^ 3 ≤ (12 / 100) ^ 3 := by
      have := pow_le_pow_left hE0.le hE12 3
      simpa using this
    have hcube0 : 0 ≤ E ^ 3 := by positivity
    have hE2low : 1 / 100 ≤ E2 := by
      rw [hE2eq]
      nlinarith
    have hE2le : E2 ≤ E + 1 / 100 := by
      rw [hE2eq]
      nlinarith
    have hdElow : 83 / 10000 ≤ E2 - E := by
      rw [hE2eq]
      nlinarith
    have hdEhigh : E2 - E < 1 / 100 := by
      have : E2 < 1 / 100 + 99 / 100 * E := by
        rw [hE2eq]
        nlinarith
      nlinarith
    have hpi : (3 : ℝ) < Real.pi := Real.pi_gt_three
    have hpymod : pymod (E2 - E) (2 * Real.pi) = E2 - E :=
      pymod_eq_self _ _ (by linarith) (by linarith) (by linarith)
    have habs : ¬ (|pymod (E2 - E) (2 * Real.pi)| < 1e-12) := by
      rw [hpymod, abs_of_nonneg (by linarith : (0 : ℝ) ≤ E2 - E), not_lt]
      have h12 : (1e-12 : ℝ) ≤ 83 / 10000 := by norm_num
      linarith
    have hstep : keplerLoop (1 / 100) (99 / 100) (n + 1) E
        = keplerLoop (1 / 100) (99 / 100) n E2 := by
      rw [keplerLoop, ← hE2def, if_neg habs]
    rw [hstep]
    exact ih E2 hE2low (by push_cast; linarith)

/-- Counterexample to claim C9 as stated: for the ephemeris `eph99`
(`ecc = 0.99`, reduced mean anomaly `M = 0.01`) at `t = 0`, the value `E`
returned by the eccentric-anomaly iteration of `SatPos_brdc` leaves a
Kepler residual `E - ecc*sin(E) - M` of magnitude greater than `0.008`,
far above `1e-12`: the 10-iteration cap fires long before the fixed
point is reached. -/
theorem kepler_residual_counterexample :
    ¬ (|eccAnomalyLoop 0 eph99
          - eph99.ecc * Real.sin (eccAnomalyLoop 0 eph99)
          - meanAnomaly 0 eph99| < 1e-12) := by
  have hM := meanAnomaly_eph99
  have hecc : eph99.ecc = 99 / 100 := rfl
  unfold eccAnomalyLoop
  rw [hM, hecc]
  set E := keplerLoop (1 / 100) (99 / 100) 10 (1 / 100) with hEdef
  have hbounds := kepLoop99_bounds 10 (1 / 100) (by norm_num) (by push_cast; norm_num)
  rw [← hEdef] at hbounds
  obtain ⟨hElow, hEhigh⟩ := hbounds
  have hE0 : 0 < E := by linarith
  have hE1 : E ≤ 1 := by linarith
  have hsingt : E - E ^ 3 / 4 < Real.sin E := Real.sin_gt_sub_cube hE0 hE1
  have hcube : E ^ 3 ≤ (13 / 100) ^ 3 := by
    have := pow_le_pow_left hE0.le hEhigh 3
    simpa using this
  have hres : E - 99 / 100 * Real.sin E - 1 / 100 < -(8 / 1000) := by
    nlinarith
  rw [not_lt, abs_of_neg (by linarith)]
  have h12 : (1e-12 : ℝ) ≤ 8 / 1000 := by norm_num
  linarith

/-- Amended claim C9: whenever the iteration exits through its
`|dE| < 1e-12` break — with the Python `%`-based `dE` recognizing the
step only when the raw difference lies in `(-2π + 1e-12, 2π)`, which
holds from the second iteration on since `|E - E_old| ≤ 2·ecc < 2` — the
returned `E` satisfies `|E - ecc*sin(E) - M| ≤ ecc·1e-12 < 1e-12` for any
eccentricity `0 ≤ ecc < 1`.  When instead the 10-iteration cap is
exhausted, the bound can fail (see `kepler_residual_counterexample`). -/
theorem kepler_break_residual (M ecc Eold : ℝ) (h0 : 0 ≤ ecc) (h1 : ecc < 1)
    (hlow : -(2 * Real.pi) + 1e-12 < keplerStep M ecc Eold - Eold)
    (hhigh : keplerStep M ecc Eold - Eold < 2 * Real.pi)
    (hbrk : |pymod (keplerStep M ecc Eold - Eold) (2 * Real.pi)| < 1e-12) :
    |keplerStep M ecc Eold - ecc * Real.sin (keplerStep M ecc Eold) - M| < 1e-12 := by
  have hpi : 0 < 2 * Real.pi := by positivity
  set u := keplerStep M ecc Eold - Eold with hudef
  have hu : 0 ≤ u ∧ u < 1e-12 := by
    by_cases hpos : 0 ≤ u
    · have := pymod_eq_self u (2 * Real.pi) hpi hpos hhigh
      rw [this, abs_of_nonneg hpos] at hbrk
      exact ⟨hpos, hbrk⟩
    · push_neg at hpos
      have hfl : ⌊u / (2 * Real.pi)⌋ = -1 := by
        rw [Int.floor_eq_iff]
        constructor
        · push_cast
          rw [le_div_iff hpi]
          nlinarith
        · push_cast
          rw [div_lt_iff hpi]
          nlinarith
      have hpm : pymod u (2 * Real.pi) = u + 2 * Real.pi := by
        unfold pymod
        rw [hfl]
        push_cast
        ring
      rw [hpm, abs_of_nonneg (by nlinarith)] at hbrk
      nlinarith
  have hstep : keplerStep M ecc Eold - ecc * Real.sin (keplerStep M ecc Eold) - M
      = ecc * (Real.sin Eold - Real.sin (keplerStep M ecc Eold)) := by
    unfold keplerStep
    ring
  rw [hstep, abs_mul, abs_of_nonneg h0]
  have hlip : |Real.sin Eold - Real.sin (keplerStep M ecc Eold)|
      ≤ |Eold - keplerStep M ecc Eold| := by
    rw [Real.sin_sub_sin]
    rw [abs_mul, abs_mul]
    have h2 : |(2 : ℝ)| = 2 := by norm_num
    rw [h2]
    have hs : |Real.sin ((Eold - keplerStep M ecc Eold) / 2)|
        ≤ |(Eold - keplerStep M ecc Eold) / 2| := Real.abs_sin_le_abs
    have hc : |Real.cos ((Eold + keplerStep M ecc Eold) / 2)| ≤ 1 :=
      Real.abs_cos_le_one _
    calc 2 * |Real.sin ((Eold - keplerStep M ecc Eold) / 2)|
          * |Real.cos ((Eold + keplerStep M ecc Eold) / 2)|
        ≤ 2 * |(Eold - keplerStep M ecc Eold) / 2| * 1 := by
          apply mul_le_mul
          · exact mul_le_mul_of_nonneg_left hs (by norm_num)
          · exact hc
          · positivity
          · positivity
      _ = |Eold - keplerStep M ecc Eold| := by
          rw [abs_div]
          norm_num
          ring
  have huabs : |Eold - keplerStep M ecc Eold| = u := by
    rw [abs_sub_comm, ← hudef, abs_of_nonneg hu.1]
  calc ecc * |Real.sin Eold - Real.sin (keplerStep M ecc Eold)|
      ≤ ecc * u := by
        rw [← huabs]
        exact mul_le_mul_of_nonneg_left hlip h0
    _ ≤ 1 * u := mul_le_mul_of_nonneg_right h1.le hu.1
    _ < 1e-12 := by
        rw [one_mul]
        exact hu.2

/-- Witness for the amended C9: with `ecc = 0`, `M = 1`, `E_old = 1` the
break fires immediately (`dE = 0`) and the residual is `0 < 1e-12`. -/
theorem kepler_break_residual_witness :
    |keplerStep 1 0 1 - 0 * Real.sin (keplerStep 1 0 1) - 1| < 1e-12 := by
  have hpi : (3 : ℝ) < Real.pi := Real.pi_gt_three
  have hstep : keplerStep 1 0 1 - 1 = 0 := by
    unfold keplerStep
    ring
  refine kepler_break_residual 1 0 1 le_rfl (by norm_num) ?_ ?_ ?_
  · rw [hstep]
    nlinarith
  · rw [hstep]
    positivity
  · rw [hstep]
    unfold pymod
    norm_num

/-- Claim C1 (code bug): for every recognized MSM message whose system is
in the configured target systems and whose epoch-time attribute is
present, `process_message` raises `TypeError` instead of returning an
`EpochObservation` — the construction at rtcm_handler.py line 332 passes
the keyword `utc_datetime`, which the `EpochObservation` dataclass of
data_models.py (fields `gps_time`, `satellites` only) rejects.  The raise
happens before cell parsing, so it hits every such message regardless of
its satellite cells. -/
theorem msm_epoch_construction_raises (cache : List (String × Eph ℝ)) (cfg : Config)
    (gpsWeekNow gpsDow : ℤ) (msg : MSMMsg) (sysId sysType : String)
    (hsys : sysConfig (msg.identity.take 3) = some (sysId, sysType))
    (htgt : sysId ∈ cfg.target_systems)
    (htime : msg.epochTimeMs ≠ none) :
    dataclassAcceptsKwargs epochObservationFields msmEpochKwargs = false ∧
    processMessageMSM cache cfg gpsWeekNow gpsDow msg =
      Except.error "TypeError: unexpected keyword argument utc_datetime" := by
  have hkw : dataclassAcceptsKwargs epochObservationFields msmEpochKwargs = false := by
    decide
  refine ⟨hkw, ?_⟩
  unfold processMessageMSM
  simp only [hsys]
  rw [if_pos htgt]
  cases htm : msg.epochTimeMs with
  | none => exact absurd htm htime
  | some t =>
    simp only [hkw, Bool.false_eq_true, if_false]

/-- Witness for C1: the concrete GPS MSM7 message `msg1077` (default
target systems, epoch time present) makes `process_message` raise. -/
theorem msm_epoch_construction_raises_witness :
    dataclassAcceptsKwargs epochObservationFields msmEpochKwargs = false ∧
    processMessageMSM [] cfgDefault 2300 0 msg1077 =
      Except.error "TypeError: unexpected keyword argument utc_datetime" :=
  msm_epoch_construction_raises [] cfgDefault 2300 0 msg1077 "G" "GPS"
    (by decide) (by decide) (by decide)

/-- Counterexample to claim C4 as stated: decoding `msg1077` with an
ephemeris cached for `G01` but the default all-zero approximate receiver
position leaves `sat_pos_ecef` unset — `brdc2pos` returns `None` whenever
`approx_rec_pos` is all zeros, cached ephemeris or not. -/
theorem msm_position_counterexample :
    dictLookup cacheG01 "G01" = some (Eph.kep eph99) ∧
    (handleMsmObs cacheG01 cfgDefault 2300 0 msg1077).map
        (fun ep => dictLookup ep.satellites "G01")
      = some (some ({ sys_id := "G", prn := 1 } : SatelliteState ℝ)) ∧
    ({ sys_id := "G", prn := 1 } : SatelliteState ℝ).sat_pos_ecef = none := by
  refine ⟨by simp [cacheG01, dictLookup], ?_, rfl⟩
  have hz : allZero cfgDefault.approx_rec_pos = true := by
    simp [allZero, cfgDefault]
  have hsys : sysConfig (msg1077.identity.take 3) = some ("G", "GPS") := by decide
  have hscan : scanCells msg1077 = [(1, 1)] := by decide
  have hkey : mkSatKey "G" 1 = "G01" := by decide
  have hbrdc : ∀ t : ℝ, brdc2pos cfgDefault (Eph.kep eph99) "GPS" t = none := by
    intro t
    simp [brdc2pos, hz]
  have hmk : ∀ t : ℝ, mkSatState cacheG01 cfgDefault "G" "GPS" t "G01" 1
      = { sys_id := "G", prn := 1 } := by
    intro t
    simp [mkSatState, cacheG01, dictLookup, hbrdc]
  have hsig : ∀ sats st, processSignal cacheG01 "G" msg1077 (sortedPrnsOf [(1, 1)]) 1 1 sats st = sats := by
    intro sats st
    simp [processSignal, msg1077]
  unfold handleMsmObs
  simp only [hsys]
  rw [if_pos (by decide : "G" ∈ cfgDefault.target_systems)]
  have htm : msg1077.epochTimeMs = some 0 := rfl
  simp only [htm]
  rw [hscan]
  rw [if_neg (by decide : ¬ ([((1 : ℕ), (1 : ℕ))].length = 0))]
  simp only [processCells, hkey, dictLookup, hmk, hsig, Option.map_some]
  simp [dictLookup, dictInsert, hkey, hmk, hsig]

/-- With a nonzero approximate receiver position and a matching record
variant, `brdc2pos` always yields a position. -/
theorem brdc2pos_ne_none (cfg : Config) (e : Eph ℝ) (sysType : String) (t : ℝ)
    (hz : allZero cfg.approx_rec_pos = false) (hc : ephCompat e sysType) :
    brdc2pos cfg e sysType t ≠ none := by
  unfold brdc2pos
  rw [hz]
  simp only [Bool.false_eq_true, if_false]
  cases e with
  | glo g =>
    unfold ephCompat at hc
    subst hc
    simp
  | kep k =>
    unfold ephCompat at hc
    rw [decide_eq_false hc]
    simp

/-- With a nonzero approximate receiver position, a satellite state
created while its key is cached carries an ECEF position. -/
theorem mkSatState_pos (cache : List (String × Eph ℝ)) (cfg : Config)
    (sysId sysType : String) (t : ℝ) (satKey : String) (prn : ℕ) (e : Eph ℝ)
    (hz : allZero cfg.approx_rec_pos = false)
    (hlk : dictLookup cache satKey = some e) (hc : ephCompat e sysType) :
    (mkSatState cache cfg sysId sysType t satKey prn).sat_pos_ecef ≠ none := by
  unfold mkSatState
  simp only [hlk]
  cases hb : brdc2pos cfg e sysType t with
  | none => exact absurd hb (brdc2pos_ne_none cfg e sysType t hz hc)
  | some satPos =>
    dsimp only
    by_cases hcond : cfg.approx_rec_pos ≠ [] ∧ allZero cfg.approx_rec_pos = false
    · rw [if_pos hcond]
      simp
    · rw [if_neg hcond]
      simp

/-- The position invariant: every stored satellite state whose own key
holds a cached, variant-compatible record has a position; `dictInsert`
of a value satisfying the same per-key condition preserves it. -/
theorem dictInsert_pos_invariant (cache : List (String × Eph ℝ)) (sysType : String)
    (sats : List (String × SatelliteState ℝ)) (key : String) (v : SatelliteState ℝ)
    (hinv : ∀ k st, dictLookup sats k = some st →
      ∀ e, dictLookup cache k = some e → ephCompat e sysType → st.sat_pos_ecef ≠ none)
    (hv : ∀ e, dictLookup cache key = some e → ephCompat e sysType →
      v.sat_pos_ecef ≠ none) :
    ∀ k st, dictLookup (dictInsert sats key v) k = some st →
      ∀ e, dictLookup cache k = some e → ephCompat e sysType →
      st.sat_pos_ecef ≠ none := by
  intro k st hlk e he hc
  by_cases hk : k = key
  · subst hk
    rw [dictLookup_dictInsert_self] at hlk
    cases hlk
    exact hv e he hc
  · rw [dictLookup_dictInsert_ne sats key k v hk] at hlk
    exact hinv k st hlk e he hc

/-- `processSignal` preserves the position invariant (it only rewrites the
`signals` dict of the state it was handed). -/
theorem processSignal_pos_invariant (cache : List (String × Eph ℝ))
    (sysId sysType : String) (msg : MSMMsg) (sorted : List ℕ) (i prn : ℕ)
    (sats : List (String × SatelliteState ℝ)) (satState : SatelliteState ℝ)
    (hinv : ∀ k st, dictLookup sats k = some st →
      ∀ e, dictLookup cache k = some e → ephCompat e sysType → st.sat_pos_ecef ≠ none)
    (hst : ∀ e, dictLookup cache (mkSatKey sysId prn) = some e → ephCompat e sysType →
      satState.sat_pos_ecef ≠ none) :
    ∀ k st, dictLookup (processSignal cache sysId msg sorted i prn sats satState) k = some st →
      ∀ e, dictLookup cache k = some e → ephCompat e sysType →
      st.sat_pos_ecef ≠ none := by
  unfold processSignal
  cases msg.cellSig i with
  | none => exact hinv
  | some sigId =>
    dsimp only
    cases cellSignal msg i (satIdxOf sorted prn) sigId
        (get_freq sigId (mkSatKey sysId prn)
          (if sysId = "R" then
            match dictLookup cache (mkSatKey sysId prn) with
            | some eph => eph.freqChannelD
            | none => 0
          else 0)) with
    | none => exact hinv
    | some obs =>
      exact dictInsert_pos_invariant cache sysType sats (mkSatKey sysId prn) _ hinv
        (fun e he hc => hst e he hc)

/-- The cell loop preserves the position invariant: with a nonzero
approximate position, every satellite state it stores whose own key
holds a cached record of the message's system has a position. -/
theorem processCells_pos_invariant (cache : List (String × Eph ℝ)) (cfg : Config)
    (sysId sysType : String) (t : ℝ) (msg : MSMMsg) (sorted : List ℕ)
    (hz : allZero cfg.approx_rec_pos = false) :
    ∀ (cells : List (ℕ × ℕ)) (sats : List (String × SatelliteState ℝ)),
      (∀ k st, dictLookup sats k = some st →
        ∀ e, dictLookup cache k = some e → ephCompat e sysType →
        st.sat_pos_ecef ≠ none) →
      ∀ k st,
        dictLookup (processCells cache cfg sysId sysType t msg sorted cells sats) k = some st →
        ∀ e, dictLookup cache k = some e → ephCompat e sysType →
        st.sat_pos_ecef ≠ none := by
  intro cells
  induction cells with
  | nil =>
    intro sats hinv
    exact hinv
  | cons cp rest ih =>
    obtain ⟨i, prn⟩ := cp
    intro sats hinv
    simp only [processCells]
    cases hs : dictLookup sats (mkSatKey sysId prn) with
    | some st0 =>
      dsimp only
      exact ih _ (processSignal_pos_invariant cache sysId sysType msg sorted i prn sats st0 hinv
        (fun e he hc => hinv (mkSatKey sysId prn) st0 hs e he hc))
    | none =>
      dsimp only
      have hstpos : ∀ e, dictLookup cache (mkSatKey sysId prn) = some e →
          ephCompat e sysType →
          (mkSatState cache cfg sysId sysType t (mkSatKey sysId prn) prn).sat_pos_ecef ≠ none :=
        fun e he hc =>
          mkSatState_pos cache cfg sysId sysType t (mkSatKey sysId prn) prn e hz he hc
      have hinv1 := dictInsert_pos_invariant cache sysType sats (mkSatKey sysId prn)
        (mkSatState cache cfg sysId sysType t (mkSatKey sysId prn) prn) hinv hstpos
      exact ih _ (processSignal_pos_invariant cache sysId sysType msg sorted i prn _ _ hinv1 hstpos)

/-- Amended claim C4: for every decoded MSM epoch and every satellite
appearing in it, if an ephemeris is cached under that satellite's own key
at decode time, the cached record is of the message's system (which the
decode arranges — each ephemeris handler stores its variant under its
own system's key prefix), AND the configured approximate receiver
position is not all zeros, then the emitted `SatelliteState` has
`sat_pos_ecef` set.  As stated the claim fails: with the default
`approx_rec_pos = [0,0,0]`, `brdc2pos` returns `None` and the position
stays unset even though an ephemeris is cached
(see `msm_position_counterexample`). -/
theorem msm_position_invariant (cache : List (String × Eph ℝ)) (cfg : Config)
    (gpsWeekNow gpsDow : ℤ) (msg : MSMMsg) (epoch : EpochObservation ℝ)
    (sysId sysType : String)
    (hsys : sysConfig (msg.identity.take 3) = some (sysId, sysType))
    (hz : allZero cfg.approx_rec_pos = false)
    (hmsm : handleMsmObs cache cfg gpsWeekNow gpsDow msg = some epoch) :
    ∀ satKey st, dictLookup epoch.satellites satKey = some st →
      ∀ e, dictLookup cache satKey = some e → ephCompat e sysType →
      st.sat_pos_ecef ≠ none := by
  unfold handleMsmObs at hmsm
  simp only [hsys] at hmsm
  by_cases htgt : sysId ∈ cfg.target_systems
  · rw [if_pos htgt] at hmsm
    cases htm : msg.epochTimeMs with
    | none =>
      rw [htm] at hmsm
      cases hmsm
    | some tms =>
      rw [htm] at hmsm
      dsimp only at hmsm
      by_cases hc0 : (scanCells msg).length = 0
      · rw [if_pos hc0] at hmsm
        cases hmsm
      · rw [if_neg hc0] at hmsm
        have hep := Option.some.inj hmsm
        intro satKey st hlk e he hc
        rw [← hep] at hlk
        exact processCells_pos_invariant cache cfg sysId sysType _ msg _ hz
          (scanCells msg) [] (by intro k st0 h; cases h) satKey st hlk e he hc
  · rw [if_neg htgt] at hmsm
    cases hmsm

/-- Dict assignment never removes a key. -/
theorem dictLookup_dictInsert_ne_none {κ β : Type} [DecidableEq κ]
    (d : List (κ × β)) (k a : κ) (v : β) (h : dictLookup d a ≠ none) :
    dictLookup (dictInsert d k v) a ≠ none := by
  by_cases hk : a = k
  · subst hk
    rw [dictLookup_dictInsert_self]
    intro hh
    cases hh
  · rw [dictLookup_dictInsert_ne d k a v hk]
    exact h

/-- `processSignal` never removes a satellite key. -/
theorem processSignal_keeps (cache : List (String × Eph ℝ)) (sysId : String)
    (msg : MSMMsg) (sorted : List ℕ) (i prn : ℕ)
    (sats : List (String × SatelliteState ℝ)) (satState : SatelliteState ℝ)
    (a : String) (h : dictLookup sats a ≠ none) :
    dictLookup (processSignal cache sysId msg sorted i prn sats satState) a ≠ none := by
  unfold processSignal
  cases msg.cellSig i with
  | none => exact h
  | some sigId =>
    dsimp only
    cases cellSignal msg i (satIdxOf sorted prn) sigId
        (get_freq sigId (mkSatKey sysId prn)
          (if sysId = "R" then
            match dictLookup cache (mkSatKey sysId prn) with
            | some eph => eph.freqChannelD
            | none => 0
          else 0)) with
    | none => exact h
    | some obs => exact dictLookup_dictInsert_ne_none sats (mkSatKey sysId prn) a _ h

/-- The cell loop never removes a satellite key. -/
theorem processCells_keeps (cache : List (String × Eph ℝ)) (cfg : Config)
    (sysId sysType : String) (t : ℝ) (msg : MSMMsg) (sorted : List ℕ) :
    ∀ (cells : List (ℕ × ℕ)) (sats : List (String × SatelliteState ℝ)) (a : String),
      dictLookup sats a ≠ none →
      dictLookup (processCells cache cfg sysId sysType t msg sorted cells sats) a ≠ none := by
  intro cells
  induction cells with
  | nil => intro sats a h; exact h
  | cons cp rest ih =>
    obtain ⟨i, prn⟩ := cp
    intro sats a h
    simp only [processCells]
    cases hs : dictLookup sats (mkSatKey sysId prn) with
    | some st0 =>
      dsimp only
      exact ih _ a (processSignal_keeps cache sysId msg sorted i prn sats st0 a h)
    | none =>
      dsimp only
      exact ih _ a (processSignal_keeps cache sysId msg sorted i prn _ _ a
        (dictLookup_dictInsert_ne_none sats (mkSatKey sysId prn) a _ h))

/-- Every satellite cell of the message ends up as a key of the epoch's
satellite dict. -/
theorem processCells_has_key (cache : List (String × Eph ℝ)) (cfg : Config)
    (sysId sysType : String) (t : ℝ) (msg : MSMMsg) (sorted : List ℕ) :
    ∀ (cells : List (ℕ × ℕ)) (sats : List (String × SatelliteState ℝ)) (i prn : ℕ),
      (i, prn) ∈ cells →
      dictLookup (processCells cache cfg sysId sysType t msg sorted cells sats)
        (mkSatKey sysId prn) ≠ none := by
  intro cells
  induction cells with
  | nil => intro sats i prn h; cases h
  | cons cp rest ih =>
    obtain ⟨j, prnj⟩ := cp
    intro sats i prn hmem
    rcases List.mem_cons.mp hmem with hhd | htl
    · rw [Prod.mk.injEq] at hhd
      obtain ⟨h1, h2⟩ := hhd
      subst h1
      subst h2
      simp only [processCells]
      cases hs : dictLookup sats (mkSatKey sysId prn) with
      | some st0 =>
        dsimp only
        refine processCells_keeps cache cfg sysId sysType t msg sorted rest _ _ ?_
        refine processSignal_keeps cache sysId msg sorted i prn sats st0 _ ?_
        rw [hs]
        intro hh
        cases hh
      | none =>
        dsimp only
        refine processCells_keeps cache cfg sysId sysType t msg sorted rest _ _ ?_
        refine processSignal_keeps cache sysId msg sorted i prn _ _ _ ?_
        rw [dictLookup_dictInsert_self]
        intro hh
        cases hh
    · simp only [processCells]
      cases hs : dictLookup sats (mkSatKey sysId prnj) with
      | some st0 =>
        try dsimp only
        exact ih _ i prn htl
      | none =>
        try dsimp only
        exact ih _ i prn htl

/-- Witness for the amended C4: under `cfgNZ` (nonzero approximate
receiver position) and the ordinary mixed-constellation cache (a
Keplerian record under `G01` and a GLONASS record under `R01`), the
decoded GPS epoch's `G01` state carries an ECEF position — only the
satellite's own cached record has to match the message's system. -/
theorem msm_position_invariant_witness :
    (dictLookup epochMixed.satellites "G01").bind (fun st => st.sat_pos_ecef) ≠ none := by
  have hsys : sysConfig (msg1077.identity.take 3) = some ("G", "GPS") := by decide
  have hz : allZero cfgNZ.approx_rec_pos = false := by
    norm_num [allZero, cfgNZ]
  have hscan : scanCells msg1077 = [(1, 1)] := by decide
  have hkey : mkSatKey "G" 1 = "G01" := by decide
  have htm : msg1077.epochTimeMs = some 0 := rfl
  have hmsm : handleMsmObs cacheMixed cfgNZ 2300 0 msg1077 = some epochMixed := by
    unfold epochMixed
    unfold handleMsmObs
    simp only [hsys]
    rw [if_pos (by decide : "G" ∈ cfgNZ.target_systems)]
    simp only [htm]
    rw [hscan]
    rw [if_neg (by decide : ¬ ([((1 : ℕ), (1 : ℕ))].length = 0))]
    rfl
  have hlkne : dictLookup epochMixed.satellites "G01" ≠ none := by
    have hmsm2 := hmsm
    unfold handleMsmObs at hmsm2
    simp only [hsys] at hmsm2
    rw [if_pos (by decide : "G" ∈ cfgNZ.target_systems)] at hmsm2
    rw [htm] at hmsm2
    dsimp only at hmsm2
    rw [hscan] at hmsm2
    rw [if_neg (by decide : ¬ ([((1 : ℕ), (1 : ℕ))].length = 0))] at hmsm2
    have hep := Option.some.inj hmsm2
    rw [← hep]
    dsimp only
    rw [← hkey]
    exact processCells_has_key cacheMixed cfgNZ "G" "GPS" _ msg1077 _ [(1, 1)] [] 1 1
      (by simp)
  cases hlk : dictLookup epochMixed.satellites "G01" with
  | none => exact absurd hlk hlkne
  | some st =>
    have hce : dictLookup cacheMixed "G01" = some (Eph.kep eph99) := by
      simp [cacheMixed, dictLookup]
    have hcc : ephCompat (Eph.kep eph99) "GPS" := by
      unfold ephCompat
      decide
    have hpos := msm_position_invariant cacheMixed cfgNZ 2300 0 msg1077 epochMixed "G" "GPS"
      hsys hz hmsm "G01" st hlk (Eph.kep eph99) hce hcc
    simpa using hpos
